import Mathlib

/-!
# Verification of the grid-Bollinger trading bot core

A shallow embedding, in Lean 4, of the strategy core of the bot:
`src/utils.py`, `src/grid.py`, `src/indicators.py`, `src/state.py`,
`src/config.py` and `src/strategy.py`.

Modelling conventions used throughout:

* Python `float` values are modelled as `ℚ` (exact rational arithmetic);
  Python `int` as `ℤ` (or `ℕ` where the source can only produce naturals).
* Python `None` becomes `Option.none`.  Python truthiness of an optional
  number or string (`if x:`) is made explicit by `truthyQ` / `truthyStr`
  (`0`, `""` and `None` are falsy).
* Division by zero, which raises in Python, uses Lean's total division
  (`x / 0 = 0`) except where a claim depends on the raising behaviour, in
  which case the function returns an `Option`.
* Exchange I/O (`BinanceFuturesClient` calls) is modelled by environment
  records passed to each operation: a field of type `Option α` is the
  response of one call, `none` meaning the call raised `BinanceAPIError`
  (or a parse error) at that point.
* `time.time()` is a parameter `now : ℚ` of each operation.
* Persistence (`StateStore.save`) inside strategy methods has no effect on
  the in-memory `GridState` and is dropped from the state-transition
  functions; it is modelled separately for the round-trip property.
-/

namespace Barti

/-- Python truthiness of an optional float: `None` and `0.0` are falsy. -/
def truthyQ : Option ℚ → Bool
  | none => false
  | some x => x != 0

/-- Python truthiness of an optional string: `None` and `""` are falsy. -/
def truthyStr : Option String → Bool
  | none => false
  | some s => !s.isEmpty

/-! ## `src/utils.py` -/

/-- `round_up` from `src/utils.py`: ceiling-round `value` to a multiple of
`step`; a non-positive step returns the value unchanged. -/
def round_up (value step : ℚ) : ℚ :=
  if step ≤ 0 then value else (⌈value / step⌉ : ℚ) * step

/-- Python's built-in `round` on a rational: round half to even
(banker's rounding), as CPython specifies for `round(float)`. -/
def pyRound (x : ℚ) : ℤ :=
  let f := ⌊x⌋
  let r := x - (f : ℚ)
  if r < 1/2 then f
  else if (1:ℚ)/2 < r then f + 1
  else if f % 2 = 0 then f else f + 1

/-- `round_to_step` from `src/utils.py`: round `value` to the nearest
multiple of `step` (ties resolved by Python's half-to-even `round`);
a non-positive step returns the value unchanged. -/
def round_to_step (value step : ℚ) : ℚ :=
  if step ≤ 0 then value else (pyRound (value / step) : ℚ) * step

/-! ## `src/grid.py` : the level sizer -/

/-- The body of the `while current_level < level` loop of `level_qty`:
one pass per remaining level, scaling (and ceiling-rounding) the quantity
whenever the running counter is an exact multiple of `repeat_every`.
`fuel` is the number of remaining passes (`level - current_level` in the
source, which decreases by one per pass). -/
def levelQtyAux (repeat_every : ℤ) (multiplier step : ℚ) :
    ℕ → ℤ → ℚ → ℚ
  | 0, _, qty => qty
  | fuel + 1, current_level, qty =>
      levelQtyAux repeat_every multiplier step fuel (current_level + 1)
        (if current_level % repeat_every = 0 then round_up (qty * multiplier) step
         else qty)

/-- `level_qty` from `src/grid.py` (1-indexed): start from `base_qty` and
walk the counter from 1 up to `level`, rescaling at each exact multiple of
`repeat_every`.  (Python raises `ZeroDivisionError` for `repeat_every = 0`;
here `x % 0 = x ≠ 0` for the counters that occur, so no rescale fires,
and every claim about `level_qty` assumes `repeat_every ≥ 1`.) -/
def level_qty (level : ℤ) (base_qty : ℚ) (repeat_every : ℤ)
    (multiplier step : ℚ) : ℚ :=
  levelQtyAux repeat_every multiplier step (level - 1).toNat 1 base_qty

def levelStep (repeat_every : ℤ) (multiplier step : ℚ) (c : ℤ) (qty : ℚ) : ℚ :=
  if c % repeat_every = 0 then round_up (qty * multiplier) step else qty

/-! ## `src/indicators.py` : Bollinger bands

The deque of at most `period` samples is a `List ℚ` (oldest first); the
running sum and sum of squares are carried alongside, exactly as in the
source.  `add` returns `none` when `deque.popleft()` would raise
`IndexError` (which happens on every `add` when `period = 0`). -/

structure BollingerBands where
  period : ℕ
  stddev : ℚ
  window : List ℚ
  sum : ℚ
  sumsq : ℚ
deriving DecidableEq, Repr

/-- `BollingerBands.__init__`. -/
def BollingerBands.init (period : ℕ) (stddev : ℚ) : BollingerBands :=
  ⟨period, stddev, [], 0, 0⟩

/-- `BollingerBands.add`: evict the oldest sample when the window is full
(adjusting the running sums), then admit the new one. -/
def BollingerBands.add (bb : BollingerBands) (value : ℚ) : Option BollingerBands :=
  if bb.window.length = bb.period then
    match bb.window with
    | [] => none
    | oldest :: rest =>
        some { bb with
          window := rest ++ [value],
          sum := bb.sum - oldest + value,
          sumsq := bb.sumsq - oldest * oldest + value * value }
  else
    some { bb with
      window := bb.window ++ [value],
      sum := bb.sum + value,
      sumsq := bb.sumsq + value * value }

/-- `BollingerBands.ready`. -/
def BollingerBands.ready (bb : BollingerBands) : Bool :=
  bb.window.length = bb.period

/-- `BollingerBands.bands`: `None` until ready, else
`(lower, mean, upper)`; the variance is clamped at zero before the square
root, as in the source.  (`noncomputable` only because `Real.sqrt` is;
the mean and clamped variance it takes the root of are the computable
`BollingerBands.meanVar` below.) -/
noncomputable def BollingerBands.bands (bb : BollingerBands) : Option (ℝ × ℝ × ℝ) :=
  if bb.window.length = bb.period then
    let mean : ℚ := bb.sum / (bb.period : ℚ)
    let variance : ℚ := bb.sumsq / (bb.period : ℚ) - mean * mean
    let std : ℝ := Real.sqrt ((max variance 0 : ℚ) : ℝ)
    some ((mean : ℝ) - (bb.stddev : ℝ) * std, (mean : ℝ),
          (mean : ℝ) + (bb.stddev : ℝ) * std)
  else none

/-- The ready test together with the mean and clamped variance that
`bands` takes the square root of — the computable core of `bands`. -/
def BollingerBands.meanVar (bb : BollingerBands) : Option (ℚ × ℚ) :=
  if bb.window.length = bb.period then
    let mean : ℚ := bb.sum / (bb.period : ℚ)
    some (mean, max (bb.sumsq / (bb.period : ℚ) - mean * mean) 0)
  else none

/-- Feeding a sequence of samples, left to right. -/
def BollingerBands.addAll (bb : BollingerBands) : List ℚ → Option BollingerBands
  | [] => some bb
  | x :: xs =>
      match bb.add x with
      | none => none
      | some bb1 => bb1.addAll xs

def BollingerBands.WF (p : ℕ) (k : ℚ) (bb : BollingerBands) : Prop :=
  bb.period = p ∧ bb.stddev = k ∧ bb.window.length ≤ p ∧
    bb.sum = bb.window.sum ∧ bb.sumsq = (bb.window.map fun x => x * x).sum

/-! ## `src/grid.py` : the persisted grid state -/

structure GridState where
  direction : Option String
  last_entry_price : Option ℚ
  next_entry_price : Option ℚ
  levels_filled : ℤ
  cooldown_until_ts : Option ℚ
  basket_id : ℤ
  basket_start_balance : Option ℚ
  max_volume : ℚ
  worst_drawdown : ℚ
  basket_open_ts : Option ℚ
  entry_order_ids : List ℤ
  tp_order_ids : List ℤ
deriving DecidableEq, Repr

/-- The all-empty value: `GridState()` built from the dataclass defaults. -/
def GridState.empty : GridState :=
  ⟨none, none, none, 0, none, 0, none, 0, 0, none, [], []⟩

/-- `GridState.reset`: sets every field back to its default. -/
def GridState.reset (_s : GridState) : GridState := GridState.empty

/-- The JSON object `GridState.to_dict` produces (and `from_dict`
consumes): one field per dictionary key, with exactly the runtime types
the source stores there.  JSON text encoding is out of scope (spec §6
fixes the file to be this object verbatim, and `json.dump`/`json.load`
round-trip these value types exactly). -/
structure StateJson where
  direction : Option String
  last_entry_price : Option ℚ
  next_entry_price : Option ℚ
  levels_filled : ℤ
  cooldown_until_ts : Option ℚ
  basket_id : ℤ
  basket_start_balance : Option ℚ
  max_volume : ℚ
  worst_drawdown : ℚ
  basket_open_ts : Option ℚ
  entry_order_ids : List ℤ
  tp_order_ids : List ℤ
deriving DecidableEq, Repr

/-- `GridState.to_dict`. -/
def GridState.to_dict (s : GridState) : StateJson :=
  ⟨s.direction, s.last_entry_price, s.next_entry_price, s.levels_filled,
   s.cooldown_until_ts, s.basket_id, s.basket_start_balance, s.max_volume,
   s.worst_drawdown, s.basket_open_ts, s.entry_order_ids, s.tp_order_ids⟩

/-- `GridState.from_dict`.  The source's `int(...)` / `float(...)`
coercions are identities on the integer/float values `to_dict` emits. -/
def GridState.from_dict (d : StateJson) : GridState :=
  ⟨d.direction, d.last_entry_price, d.next_entry_price, d.levels_filled,
   d.cooldown_until_ts, d.basket_id, d.basket_start_balance, d.max_volume,
   d.worst_drawdown, d.basket_open_ts, d.entry_order_ids, d.tp_order_ids⟩

/-! ## `src/state.py` : the state store

`StateStore.save` serialises `to_dict(state)` (via a temp file and an
atomic rename — the filesystem mechanics are out of scope).
`StateStore.load` reads the file back: a missing file or any read/parse
error (`none` here) yields a fresh `GridState()`. -/

def StateStore.save (s : GridState) : StateJson := s.to_dict

def StateStore.load (file : Option StateJson) : GridState :=
  match file with
  | none => GridState.empty
  | some d => GridState.from_dict d

/-! ## `src/config.py`

Only the fields the strategy core reads are modelled.  `name`,
`timeframe`, `leverage` and `margin_mode` are never read by the code under
proof and are omitted.  `lot_size` and `price_tick_size` are read by the
strategy (`self.cfg.lot_size`, `self.cfg.price_tick_size`) even though
`config.py`'s `SymbolConfig` dataclass does not declare them; config
loading is out of scope (spec §1), so they appear here as the values the
strategy assumes are present. -/

structure GridShapeConfig where
  base_qty : ℚ
  repeat_every : ℤ
  multiplier : ℚ
deriving DecidableEq, Repr

structure BollingerConfig where
  period : ℕ
  stddev : ℚ
deriving DecidableEq, Repr

structure SymbolConfig where
  max_levels : ℤ
  grid_spacing_usd : ℚ
  target_profit_usd : ℚ
  min_qty_step : ℚ
  min_notional_usd : ℚ
  grid : GridShapeConfig
  bollinger : BollingerConfig
  cooldown_minutes : ℤ
  lot_size : ℚ
  price_tick_size : ℚ
deriving DecidableEq, Repr

/-! ## `src/strategy.py` : take-profit pricing -/

/-- `GridBollingerStrategy._tp_price`: lots (clamped below at `1e-9`)
times the per-lot profit target, spread over the quantity, applied against
the entry in the profitable direction, rounded to the price tick. -/
def tp_price (cfg : SymbolConfig) (entry_price qty : ℚ) (direction : String) : ℚ :=
  let lots := max (qty / cfg.lot_size) (1 / 1000000000)
  let target := lots * cfg.target_profit_usd
  let delta := target / qty
  let raw := if direction = "short" then entry_price - delta else entry_price + delta
  round_to_step raw cfg.price_tick_size

/-- `GridBollingerStrategy._tp_profit`. -/
def tp_profit (entry_price tp qty : ℚ) (direction : String) : ℚ :=
  if direction = "short" then (entry_price - tp) * qty else (tp - entry_price) * qty

/-! ## UTC calendar rendering

`strategy.py` derives basket ids with
`int(time.strftime("%y%m%d%H%M%S", time.gmtime(ts)))` and formats
`open_at` with `time.strftime("%Y-%m-%dT%H:%M:%SZ", ...)`;
`state.py` writes `datetime.utcnow().isoformat()`.  `gmtime` is the
standard civil-from-days conversion, here for non-negative epoch
seconds. -/

structure CivilTime where
  year : ℕ
  month : ℕ
  day : ℕ
  hour : ℕ
  minute : ℕ
  second : ℕ
deriving DecidableEq, Repr

/-- `time.gmtime` for a non-negative epoch timestamp (seconds are
truncated to an integer, as CPython does). -/
def civilFromTs (ts : ℚ) : CivilTime :=
  let secs : ℕ := (⌊ts⌋).toNat
  let days := secs / 86400
  let sod := secs % 86400
  let z := days + 719468
  let era := z / 146097
  let doe := z % 146097
  let yoe := (doe - doe / 1460 + doe / 36524 - doe / 146096) / 365
  let y0 := yoe + era * 400
  let doy := doe - (365 * yoe + yoe / 4 - yoe / 100)
  let mp := (5 * doy + 2) / 153
  let d := doy - (153 * mp + 2) / 5 + 1
  let m := if mp < 10 then mp + 3 else mp - 9
  let y := if m ≤ 2 then y0 + 1 else y0
  ⟨y, m, d, sod / 3600, sod % 3600 / 60, sod % 60⟩

/-- `GridBollingerStrategy._new_basket_id` for a given first-fill
timestamp: the decimal digits `YYMMDDHHMMSS` read as an integer. -/
def newBasketId (ts : ℚ) : ℤ :=
  let c := civilFromTs ts
  ((c.year % 100) * 10000000000 + c.month * 100000000 + c.day * 1000000
    + c.hour * 10000 + c.minute * 100 + c.second : ℕ)

/-! ## Decimal string rendering (`str`, `%f`, `strftime`) -/

/-- The character of a decimal digit. -/
def digitChar (d : ℕ) : Char := Char.ofNat (48 + d)

/-- Decimal digits of a natural number, most significant first
(empty for 0). -/
def natChars (n : ℕ) : List Char := ((Nat.digits 10 n).map digitChar).reverse

/-- Python `str` of a natural number. -/
def natStr (n : ℕ) : String :=
  if n = 0 then "0" else String.mk (natChars n)

/-- Python `str` of an integer. -/
def intStr (i : ℤ) : String :=
  if i < 0 then "-" ++ natStr i.natAbs else natStr i.natAbs

/-- Zero-padded fixed-width decimal rendering (`%02d` etc.). -/
def padNat (w n : ℕ) : List Char :=
  List.replicate (w - (natChars n).length) '0' ++ natChars n

/-- `time.strftime("%Y-%m-%dT%H:%M:%SZ", time.gmtime(ts))`. -/
def strftimeIso (ts : ℚ) : String :=
  let c := civilFromTs ts
  String.mk (padNat 4 c.year ++ '-' :: padNat 2 c.month ++ '-' :: padNat 2 c.day
    ++ 'T' :: padNat 2 c.hour ++ ':' :: padNat 2 c.minute
    ++ ':' :: padNat 2 c.second ++ ['Z'])

/-- The character list of Python's `f"{q:.prec f}"`: optional sign,
integer digits, `'.'`, then exactly `prec` fraction digits.  (CPython
formats the nearest representable value, which for the rationals in these
claims is round-half-even on the scaled value.) -/
def fmtFixedChars (prec : ℕ) (q : ℚ) : List Char :=
  let n := pyRound (q * ((10 : ℚ) ^ prec))
  let m := n.natAbs
  let intChars := if m / 10 ^ prec = 0 then ['0'] else natChars (m / 10 ^ prec)
  let sign : List Char := if n < 0 then ['-'] else []
  sign ++ intChars ++ '.' :: padNat prec (m % 10 ^ prec)

/-- Python's `f"{q:.prec f}"` as a string. -/
def fmtFixed (prec : ℕ) (q : ℚ) : String := String.mk (fmtFixedChars prec q)

/-- `str.rstrip` for a single strip character. -/
def dropTrailing (c : Char) (l : List Char) : List Char :=
  (l.reverse.dropWhile (fun x => x == c)).reverse

/-! ## `src/state.py` : the basket ledger -/

/-- `BasketRecorder.HEADER`, verbatim. -/
def BasketRecorder.HEADER : List String :=
  ["open_at", "closed_at", "basket_id", "symbol", "direction", "levels",
   "max_volume_eth", "margin_used", "margin_level", "grid_spacing_usd",
   "tp_per_lot_usd", "holding_time_min", "worst_drawdown", "pnl"]

/-- The summary dictionary `_maybe_reset_state` assembles at basket close:
exactly the keys the source puts in it.  (`BasketRecorder.append` also
looks up `margin_used`, `margin_level`, `grid_spacing_usd`,
`tp_per_lot_usd`, `holding_time_min` and `closed_at`, none of which this
dict carries, so those lookups hit their defaults.) -/
structure BasketSummary where
  basket_id : ℤ
  levels : ℤ
  max_volume_eth : ℚ
  worst_drawdown : ℚ
  pnl : Option ℚ
  direction : Option String
  open_at : Option String
deriving DecidableEq, Repr

/-- The `max_volume_str` computation in `BasketRecorder.append`:
six-decimal rendering with trailing zeros then a trailing dot stripped,
empty falling back to `"0"`. -/
def maxVolumeStr (v : ℚ) : String :=
  let t := dropTrailing '.' (dropTrailing '0' (fmtFixedChars 6 v))
  if t = [] then "0" else String.mk t

/-- The CSV row `BasketRecorder.append` writes for one closed basket.
`now_iso` is `datetime.utcnow().isoformat()`, used when the summary
carries no `closed_at` (it never does).  `csv.writer` renders `None` as
the empty cell and stringifies numbers with `str`. -/
def BasketRecorder.append_row (symbol : String) (summary : BasketSummary)
    (now_iso : String) : List String :=
  [summary.open_at.getD "",
   now_iso,
   intStr summary.basket_id,
   symbol,
   summary.direction.getD "",
   intStr summary.levels,
   maxVolumeStr summary.max_volume_eth,
   fmtFixed 2 0,
   fmtFixed 2 0,
   fmtFixed 2 0,
   fmtFixed 2 0,
   fmtFixed 2 0,
   fmtFixed 6 |summary.worst_drawdown|,
   match summary.pnl with
   | none => ""
   | some p => fmtFixed 2 p]

/-! ## Exchange snapshots and order traffic

Each record below carries exactly the response fields the strategy reads,
already parsed to numbers (the source parses with `float(... or 0)` /
`int(...)`; a missing or falsy key is the zero of the field's type). -/

/-- `get_position_info`, as read by the strategy. -/
structure PosInfo where
  positionAmt : ℚ
  entryPrice : ℚ
  markPrice : ℚ
  unRealizedProfit : ℚ
deriving DecidableEq, Repr

/-- One order of `get_open_orders`, as read by the strategy.
`orderId = none` means the id is missing or unparsable (`int` raises). -/
structure OpenOrder where
  orderId : Option ℤ
  reduceOnly : Bool
  origQty : ℚ
  price : ℚ
deriving DecidableEq, Repr

/-- One user trade, as `_populate_entries_from_trades` parses it
(entries whose parse raises are dropped before this point). -/
structure Trade where
  buyer : Bool
  qty : ℚ
  price : ℚ
  fee : ℚ
  time : ℤ
  oid : ℤ
deriving DecidableEq, Repr

/-- The orders the strategy sends to the exchange during one operation,
in order.  An entry is recorded when the corresponding client call is
made, whether or not the venue accepts it. -/
inductive Event where
  | entryOrder (side : String) (qty : ℚ)
  | tpOrder (side : String) (qty price : ℚ)
  | cancelAll
deriving DecidableEq, Repr

/-- Python `x or default` on an optional string. -/
def orElseStr (o : Option String) (d : String) : String :=
  match o with
  | some s => if s = "" then d else s
  | none => d

/-- `_new_basket_id(opened_at)`: `ts = opened_at or time.time()`, then the
`YYMMDDHHMMSS` encoding. -/
def new_basket_id (opened_at : Option ℚ) (now : ℚ) : ℤ :=
  newBasketId (if truthyQ opened_at then opened_at.getD 0 else now)

/-! ## `_execute_market` -/

/-- The `place_market_order` response fields `_execute_market` reads. -/
structure OrderResp where
  orderId : Option ℤ
  executedQty : ℚ
  avgPrice : ℚ
  updateTime : Option ℚ
  transactTime : Option ℚ
deriving DecidableEq, Repr

/-- The exchange responses one `_execute_market` call sees, in call
order; `none` marks a call that raised. -/
structure ExecEnv where
  prePos : Option ℚ
  order : Option OrderResp
  postPos : Option (ℚ × ℚ)
  trades : Option (List (ℤ × ℚ × ℚ))
deriving Repr

/-- What `_execute_market` returns when it does not raise. -/
structure Fill where
  orderId : Option ℤ
  entry_price : ℚ
  executed : ℚ
  order_ts_ms : Option ℚ
deriving DecidableEq, Repr

/-- `GridBollingerStrategy._execute_market`: place a market order,
fall back to the position delta if `executedQty` is zero, refine the fill
price from trade history, and raise (`none`) if nothing confirms a fill. -/
def execMarket (env : ExecEnv) (qty price : ℚ) : Option Fill :=
  match env.order with
  | none => none
  | some order =>
      let preQty := env.prePos.getD 0
      let executed := order.executedQty
      let entry1 := if order.avgPrice ≠ 0 then order.avgPrice else price
      let step2 : ℚ × ℚ :=
        if executed ≤ 0 then
          match env.postPos with
          | none => (executed, entry1)
          | some (postQty, postEntry) =>
              let delta := |postQty - preQty|
              if qty * (9/10) ≤ delta then
                (delta,
                 if postEntry ≠ 0 then postEntry
                 else if entry1 ≠ 0 then entry1 else price)
              else (executed, entry1)
        else (executed, entry1)
      let executed := step2.1
      let entry2 := step2.2
      let entry3 :=
        match order.orderId with
        | some oid =>
            if oid ≠ 0 then
              match env.trades with
              | none => entry2
              | some trades =>
                  let mine := trades.filter (fun t => t.1 = oid)
                  let total_qty := mine.foldl (fun a t => a + t.2.1) 0
                  let total_quote := mine.foldl (fun a t => a + t.2.2) 0
                  if 0 < total_qty ∧ 0 < total_quote then total_quote / total_qty
                  else entry2
            else entry2
        | none => entry2
      if executed ≤ 0 then none
      else
        some ⟨order.orderId,
              if entry3 ≤ 0 then price else entry3,
              executed,
              match order.updateTime with
              | some t => if t ≠ 0 then some t else order.transactTime
              | none => order.transactTime⟩

/-! ## Opening, extending, closing -/

/-- `GridBollingerStrategy._place_tp`: price the take-profit, place it,
and record its order id (an unparsable id in the response is ignored).
Returns the state, the order sent, and whether `place_limit_tp` raised
(in which case the exception escapes to the caller with the state as it
stood). -/
def place_tp (cfg : SymbolConfig) (tpResp : Option (Option ℤ))
    (entry_price qty : ℚ) (direction : String) (s : GridState) :
    GridState × List Event × Bool :=
  let tpp := tp_price cfg entry_price qty direction
  let side := if direction = "short" then "BUY" else "SELL"
  let evs := [Event.tpOrder side qty tpp]
  match tpResp with
  | none => (s, evs, true)
  | some oid? =>
      match oid? with
      | some oid => ({ s with tp_order_ids := s.tp_order_ids ++ [oid] }, evs, false)
      | none => (s, evs, false)

/-- The exchange responses one `_start_position` call sees. -/
structure StartEnv where
  wallet : Option ℚ
  exec : ExecEnv
  tpResp : Option (Option ℤ)
  now : ℚ
deriving Repr

/-- `GridBollingerStrategy._start_position`: size level 1 (bumped to the
min-notional quantity when short of it), market-buy/sell it, and populate
every basket field.  The `Bool` is true when an exception escaped (from
`_execute_market` or `_place_tp`), leaving the state as at the raise
point. -/
def startPosition (cfg : SymbolConfig) (env : StartEnv) (price : ℚ)
    (direction : String) (s : GridState) : GridState × List Event × Bool :=
  let qty0 := level_qty 1 cfg.grid.base_qty cfg.grid.repeat_every
    cfg.grid.multiplier cfg.min_qty_step
  let min_qty := round_up (cfg.min_notional_usd / price) cfg.min_qty_step
  let qty := if qty0 < min_qty then min_qty else qty0
  let side := if direction = "short" then "SELL" else "BUY"
  let evs := [Event.entryOrder side qty]
  match execMarket env.exec qty price with
  | none => (s, evs, true)
  | some fill =>
      let s := if truthyQ fill.order_ts_ms
               then { s with basket_open_ts := some (fill.order_ts_ms.getD 0 / 1000) }
               else s
      let s := match fill.orderId with
               | some oid => { s with entry_order_ids := s.entry_order_ids ++ [oid] }
               | none => s
      let nextEntry := if direction = "short"
                       then fill.entry_price + cfg.grid_spacing_usd
                       else fill.entry_price - cfg.grid_spacing_usd
      let s := { s with
        direction := some direction,
        last_entry_price := some fill.entry_price,
        levels_filled := 1,
        next_entry_price := some nextEntry }
      let s := if s.basket_open_ts = none
               then { s with basket_open_ts := some env.now } else s
      let s := if s.basket_id = (0 : ℤ)
               then { s with basket_id := new_basket_id s.basket_open_ts env.now }
               else s
      let s := { s with
        basket_start_balance := env.wallet,
        max_volume := max s.max_volume qty,
        worst_drawdown := 0 }
      match place_tp cfg env.tpResp fill.entry_price qty direction s with
      | (s, evTp, raised) => (s, evs ++ evTp, raised)

/-- The per-extension exchange responses `_extend_grid_if_needed` sees,
indexed by the level being opened. -/
structure ExtendEnv where
  exec : ℤ → ExecEnv
  tpResp : ℤ → Option (Option ℤ)

/-- The `cumulative` sum `_extend_grid_if_needed` computes after a fill:
the level quantities of every level up to and including the one just
opened. -/
def extendCumulative (cfg : SymbolConfig) (level : ℤ) : ℚ :=
  (List.range level.toNat).foldl
    (fun a i => a + level_qty ((i : ℤ) + 1) cfg.grid.base_qty
      cfg.grid.repeat_every cfg.grid.multiplier cfg.min_qty_step) 0

/-- The state mutations `_extend_grid_if_needed` performs after one
successful fill, in source order: track the entry order id, bump the
level count, move the last/next entry anchors, and update the peak
volume. -/
def extendApply (cfg : SymbolConfig) (level : ℤ) (fill : Fill)
    (s : GridState) : GridState :=
  let s := match fill.orderId with
           | some oid => { s with entry_order_ids := s.entry_order_ids ++ [oid] }
           | none => s
  let s := { s with
    levels_filled := level,
    last_entry_price := some fill.entry_price,
    next_entry_price := some (if s.direction = some "short"
      then fill.entry_price + cfg.grid_spacing_usd
      else fill.entry_price - cfg.grid_spacing_usd) }
  { s with max_volume := max s.max_volume (extendCumulative cfg level) }

/-- The `while True` body of `_extend_grid_if_needed`.  Each pass either
returns (no entry due, or the level cap reached) or fills one more level
and loops; `levels_filled` grows by one per pass, so the caller's fuel
`(max_levels - levels_filled) + 1` is never exhausted (the fuel-0 branch
is unreachable). -/
def extendLoop (cfg : SymbolConfig) (env : ExtendEnv) (price : ℚ) :
    ℕ → GridState → GridState × List Event × Bool
  | 0, s => (s, [], false)
  | fuel + 1, s =>
      match s.last_entry_price with
      | none => (s, [], false)
      | some last =>
          let spacing := cfg.grid_spacing_usd
          let target := if s.direction = some "short" then last + spacing
                        else last - spacing
          let s := { s with next_entry_price := some target }
          let should_enter :=
            (s.direction = some "short" ∧ target ≤ price) ∨
              (s.direction = some "long" ∧ price ≤ target)
          if ¬ should_enter then (s, [], false)
          else if cfg.max_levels ≤ s.levels_filled then (s, [], false)
          else
            let level := s.levels_filled + 1
            let qty0 := level_qty level cfg.grid.base_qty cfg.grid.repeat_every
              cfg.grid.multiplier cfg.min_qty_step
            let min_qty := round_up (cfg.min_notional_usd / price) cfg.min_qty_step
            let qty := if qty0 < min_qty then min_qty else qty0
            let side := if s.direction = some "short" then "SELL" else "BUY"
            let evs := [Event.entryOrder side qty]
            match execMarket (env.exec level) qty price with
            | none => (s, evs, true)
            | some fill =>
                let s := extendApply cfg level fill s
                match place_tp cfg (env.tpResp level) fill.entry_price qty
                    (s.direction.getD "") s with
                | (s, evTp, raised) =>
                    if raised then (s, evs ++ evTp, true)
                    else
                      match extendLoop cfg env price fuel s with
                      | (s2, evs2, raised2) => (s2, evs ++ evTp ++ evs2, raised2)

/-- `GridBollingerStrategy._extend_grid_if_needed`. -/
def extendGridIfNeeded (cfg : SymbolConfig) (env : ExtendEnv) (price : ℚ)
    (s : GridState) : GridState × List Event × Bool :=
  if ¬ truthyStr s.direction then (s, [], false)
  else if cfg.max_levels ≤ s.levels_filled ∨ cfg.grid_spacing_usd ≤ 0 then (s, [], false)
  else extendLoop cfg env price ((cfg.max_levels - s.levels_filled).toNat + 1) s

/-! ## Trade-history reconstruction -/

/-- The `last_opposite_idx` scan of `_populate_entries_from_trades`:
the index of the last trade on the closing side, `-1` when none. -/
def lastOppositeIdx (direction : String) (trades : List Trade) : ℤ :=
  (trades.foldl
    (fun (p : ℤ × ℤ) t =>
      ((p.1 + 1 : ℤ),
       if (direction = "long" ∧ ¬ t.buyer) ∨ (direction = "short" ∧ t.buyer)
       then p.1 else p.2))
    (0, -1)).2

/-- The reverse accumulation loop of `_populate_entries_from_trades`:
walk the active slice newest-first, totalling signed quantity, and stop
as soon as the open size is covered (within tolerance). -/
def pickLoop (direction : String) (position_qty tol : ℚ) :
    ℚ → List Trade → List Trade → ℚ × List Trade
  | net, picked, [] => (net, picked)
  | net, picked, t :: rest =>
      let delta := if (direction = "long" ∧ t.buyer) ∨ (direction = "short" ∧ ¬ t.buyer)
                   then t.qty else -t.qty
      let net := net + delta
      let picked := picked ++ [t]
      if position_qty - tol ≤ net then (net, picked)
      else pickLoop direction position_qty tol net picked rest

/-- The scanning half of `_populate_entries_from_trades`: sort the
history, cut it at the last opposite-side trade, pick the minimal newest
suffix covering the open size, and keep its same-direction entries.
Returns `(last entry trade, first entry trade, de-duplicated order ids)`
on success, `none` on any of the source's bail-outs. -/
def populatePick (direction : String) (position_qty : ℚ)
    (trades_raw : List Trade) : Option (Trade × Trade × List ℤ) :=
  let trades := trades_raw.mergeSort (fun a b => decide (a.time ≤ b.time))
  let last_opposite_idx := lastOppositeIdx direction trades
  let active_slice :=
    if last_opposite_idx + 1 < (trades.length : ℤ)
    then trades.drop (last_opposite_idx + 1).toNat
    else trades
  if active_slice = [] then none
  else
    let tol := max (1/1000000) (position_qty * (1/100))
    let netPicked := pickLoop direction position_qty tol 0 [] active_slice.reverse
    if netPicked.1 < position_qty - tol then none
    else
      let picked := netPicked.2.reverse
      let entry_trades := picked.filter
        (fun t => if direction = "long" then t.buyer else !t.buyer)
      match entry_trades.getLast?, entry_trades.head? with
      | some tLast, some tFirst =>
          some (tLast, tFirst, (entry_trades.map (fun t => t.oid)).dedup)
      | _, _ => none

/-- The state mutations of a successful `_populate_entries_from_trades`,
in source order. -/
def populateApply (cfg : SymbolConfig) (now : ℚ) (direction : String)
    (tLast tFirst : Trade) (ids : List ℤ) (s : GridState) : GridState :=
  let s := { s with entry_order_ids := ids }
  let s := { s with
    last_entry_price := if tLast.price ≠ 0 then some tLast.price
                        else s.last_entry_price }
  let s := if tFirst.time ≠ 0
           then { s with basket_open_ts := some ((tFirst.time : ℚ) / 1000) }
           else s
  let nextEntry := if direction = "long"
                   then s.last_entry_price.getD 0 - cfg.grid_spacing_usd
                   else s.last_entry_price.getD 0 + cfg.grid_spacing_usd
  let s := if 0 < cfg.grid_spacing_usd ∧ truthyQ s.last_entry_price
           then { s with next_entry_price := some nextEntry }
           else s
  if truthyQ s.basket_open_ts
  then { s with basket_id := new_basket_id s.basket_open_ts now }
  else s

/-- `GridBollingerStrategy._populate_entries_from_trades`: find the last
flat point in trade history, take the minimal newest suffix covering the
open size, and rebuild entry ids / last entry / open timestamp / basket id
from it.  Returns the state and the source's boolean (`True` when it
populated).  `tradesResp = none` means `get_user_trades` raised.  (Python
collects the ids through a `set`, whose iteration order is unspecified;
`dedup` fixes one order, and nothing downstream reads the order.) -/
def populateFromTrades (cfg : SymbolConfig) (tradesResp : Option (List Trade))
    (now : ℚ) (position_qty : ℚ) (direction : String) (s : GridState) :
    GridState × Bool :=
  if position_qty ≤ 0 ∨ direction = "" then (s, false)
  else match tradesResp with
  | none => (s, false)
  | some trades_raw =>
      if trades_raw = [] then (s, false)
      else match populatePick direction position_qty trades_raw with
      | some (tLast, tFirst, ids) =>
          (populateApply cfg now direction tLast tFirst ids s, true)
      | none => (s, false)

/-- `GridBollingerStrategy._ensure_basket_time_from_entries`: backfill
the open timestamp and basket id from the earliest entry order.
`orderTs` is the `updateTime or time or transactTime` of the `get_order`
response for the smallest tracked id; `none` when the call raised (the
`except: return`).  The choice of which id to query does not appear in
the state, so only the response is modelled. -/
def ensureBasketTime (orderTs : Option ℚ) (now : ℚ) (s : GridState) : GridState :=
  if s.basket_open_ts ≠ none ∧ s.basket_id ≠ 0 then s
  else if s.entry_order_ids = [] then s
  else match orderTs with
  | none => s
  | some ts =>
      if ts ≠ 0 then
        let s := { s with basket_open_ts := some (ts / 1000) }
        { s with basket_id := new_basket_id s.basket_open_ts now }
      else s

/-! ## Basket close -/

/-- `GridBollingerStrategy._maybe_reset_state`: on an (effectively) zero
exchange position with a live local direction, assemble the close summary,
hand it to the close-callback and the ledger — each inside its own
`try/except`, so `cbRaises` / `rcRaises` (the callback or the append
raising) cannot affect what follows — then reset the state and arm the
cooldown when one is configured.  `wallet = none` means `get_account`
raised (its `except` leaves the PnL unknown). -/
def maybeResetState (cfg : SymbolConfig) (wallet : Option ℚ) (now : ℚ)
    (cbRaises rcRaises : Bool) (position_qty : ℚ) (s : GridState) :
    GridState × Option BasketSummary :=
  if |position_qty| < 1/100000000 ∧ truthyStr s.direction then
    let pnl : Option ℚ :=
      match wallet, s.basket_start_balance with
      | some w, some b => some (w - b)
      | _, _ => none
    let summary : BasketSummary :=
      ⟨s.basket_id, s.levels_filled, s.max_volume, s.worst_drawdown, pnl,
       s.direction, s.basket_open_ts.map strftimeIso⟩
    let _ := cbRaises
    let _ := rcRaises
    let s := s.reset
    let s := if 0 < cfg.cooldown_minutes
             then { s with cooldown_until_ts := some (now + (cfg.cooldown_minutes : ℚ) * 60) }
             else s
    (s, some summary)
  else (s, none)

/-! ## Reconciliation -/

/-- The greedy level-count inference loop of `reconcile_position`:
`while cumulative + 1e-9 < abs_qty and level < max_levels`, adding
`level_qty(level)` per pass.  `level` grows by one per pass, so fuel
`max_levels.toNat` (with `level` starting at 0) covers every pass the
source can make. -/
def inferLevelLoop (cfg : SymbolConfig) (abs_qty : ℚ) :
    ℕ → ℤ → ℚ → ℤ
  | 0, level, _ => level
  | fuel + 1, level, cumulative =>
      if cumulative + 1/1000000000 < abs_qty ∧ level < cfg.max_levels then
        inferLevelLoop cfg abs_qty fuel (level + 1)
          (cumulative + level_qty (level + 1) cfg.grid.base_qty
            cfg.grid.repeat_every cfg.grid.multiplier cfg.min_qty_step)
      else level

/-- The level count `reconcile_position` infers from the position size. -/
def inferLevel (cfg : SymbolConfig) (abs_qty : ℚ) : ℤ :=
  inferLevelLoop cfg abs_qty cfg.max_levels.toNat 0 0

/-- The exchange responses `reconcile_position` can consume beyond its
arguments: the trade history for `_populate_entries_from_trades`, and the
clock. -/
structure ReconcileEnv where
  trades : Option (List Trade)
  now : ℚ

/-- The level count the rebuild uses: the greedy inference, possibly
overridden by the (capped) reduce-only order count when it is larger. -/
def rebuildLevel (cfg : SymbolConfig) (abs_qty : ℚ)
    (open_orders : Option (List OpenOrder)) : ℤ :=
  let level := inferLevel cfg abs_qty
  match open_orders with
  | some oo =>
      if oo = [] then level
      else
        let ro_count : ℤ := ((oo.filter (fun o => o.reduceOnly)).length : ℤ)
        if level < ro_count then min ro_count cfg.max_levels else level
  | none => level

/-- The basket-id backfill inside the rebuild: when no id exists, default
the open timestamp to now and derive the id from it. -/
def rebuildBasketId (now : ℚ) (s : GridState) : GridState :=
  if s.basket_id = (0 : ℤ) then
    let s : GridState := if s.basket_open_ts = none
                         then { s with basket_open_ts := some now } else s
    { s with basket_id := new_basket_id s.basket_open_ts now }
  else s

/-- The reduce-only order-id tracking inside the rebuild. -/
def rebuildTpIds (open_orders : Option (List OpenOrder)) (s : GridState) :
    GridState :=
  match open_orders with
  | some oo =>
      if oo = [] then s
      else
        let tp_ids : List ℤ := (oo.filter (fun o => o.reduceOnly)).filterMap
          (fun o => o.orderId)
        if tp_ids = [] then s else { s with tp_order_ids := tp_ids }
  | none => s

/-- The rebuild branch of `reconcile_position` (exchange position
non-zero, local state empty), in source order. -/
def reconcileRebuild (cfg : SymbolConfig) (env : ReconcileEnv) (price : ℚ)
    (pos_info : Option PosInfo) (open_orders : Option (List OpenOrder))
    (position_qty : ℚ) (s : GridState) : GridState :=
  let direction := if 0 < position_qty then "long" else "short"
  let s := { s with direction := some direction }
  let abs_qty := |position_qty|
  let s := { s with levels_filled := rebuildLevel cfg abs_qty open_orders }
  let inferred_entry := match pos_info with
                        | some p => p.entryPrice
                        | none => price
  let lastEntry := if inferred_entry ≠ 0 then inferred_entry else price
  let s := { s with last_entry_price := some lastEntry }
  let nextEntry := if direction = "short"
                   then inferred_entry + cfg.grid_spacing_usd
                   else inferred_entry - cfg.grid_spacing_usd
  let s := { s with next_entry_price := some nextEntry }
  let s := rebuildBasketId env.now s
  let s := rebuildTpIds open_orders s
  if s.entry_order_ids = ([] : List ℤ)
  then (populateFromTrades cfg env.trades env.now abs_qty direction s).1
  else s

/-- `GridBollingerStrategy.reconcile_position`.  A stale local direction
against a flat exchange resets the state; a live local direction is
trusted untouched; otherwise the basket is rebuilt from the position
snapshot, the open orders and (when no entry ids are known) the trade
history. -/
def reconcilePosition (cfg : SymbolConfig) (env : ReconcileEnv) (price : ℚ)
    (pos_info : Option PosInfo) (open_orders : Option (List OpenOrder))
    (s : GridState) : GridState :=
  let position_qty := match pos_info with
                      | some p => p.positionAmt
                      | none => 0
  if |position_qty| < 1/100000000 then
    if truthyStr s.direction then s.reset else s
  else if truthyStr s.direction then s
  else reconcileRebuild cfg env price pos_info open_orders position_qty s

/-! ## The tick -/

/-- The exchange traffic one `on_price` tick can see.  `bands` stands for
the indicator read on this tick: `none` when `bands()` returned `None`,
otherwise the pair of breach comparisons
`(price > upper, price < lower)` — the only facts about the bands the
tick consumes (the indicator itself carries no `GridState` and is
specified separately). -/
structure TickEnv where
  openOrders : List OpenOrder
  posInfo : Option PosInfo
  orderTs : Option ℚ
  trades : Option (List Trade)
  wallet : Option ℚ
  cbRaises : Bool
  rcRaises : Bool
  bands : Option (Bool × Bool)
  startEnv : StartEnv
  extendEnv : ExtendEnv
  now : ℚ

/-- The tick's `_populate_entries_from_trades` invocation (lines guarded
by "no tracked entry ids, an open position, a live direction"). -/
def tickPopulate (cfg : SymbolConfig) (trades : Option (List Trade))
    (now position_qty : ℚ) (s : GridState) : GridState :=
  if s.entry_order_ids = [] ∧ 0 < |position_qty| ∧ truthyStr s.direction
  then (populateFromTrades cfg trades now |position_qty|
    (s.direction.getD "") s).1
  else s

/-- The tick's backfill of a missing `last_entry_price` from the
exchange's reported entry price (with the next-entry anchor when a
positive spacing is configured). -/
def tickFixLastEntry (cfg : SymbolConfig) (entry_price : ℚ)
    (s : GridState) : GridState :=
  if s.last_entry_price = none ∧ entry_price ≠ 0 then
    let s := { s with last_entry_price := some entry_price }
    let nextEntry := if s.direction = some "short"
                     then entry_price + cfg.grid_spacing_usd
                     else entry_price - cfg.grid_spacing_usd
    if 0 < cfg.grid_spacing_usd then
      { s with next_entry_price := some nextEntry }
    else s
  else s

/-- The tick's running-statistics update: worst drawdown (unrealized PnL
over notional, only ever decreasing) and peak volume. -/
def tickUpdateStats (position_qty mark_price unrealized : ℚ)
    (s : GridState) : GridState :=
  let notional := |position_qty| * mark_price
  if 0 < notional then
    let drawdown := unrealized / notional
    let s := if drawdown < s.worst_drawdown
             then { s with worst_drawdown := drawdown } else s
    if s.max_volume < |position_qty|
    then { s with max_volume := |position_qty| } else s
  else s

/-- The tick's TP-alignment block: with an open position, verify exactly
one reduce-only order of the right size and price; otherwise cancel all
open orders and reissue one TP.  Only order traffic — it never writes
`GridState`. -/
def tickTpEvents (cfg : SymbolConfig) (open_orders : List OpenOrder)
    (position_qty entry_price mark_price : ℚ) (s : GridState) : List Event :=
  let apos := |position_qty|
  if 0 < apos then
    let ro_orders := open_orders.filter (fun o => o.reduceOnly)
    let target_tp := tp_price cfg
      (if 0 < entry_price then entry_price else mark_price)
      apos (orElseStr s.direction "long")
    let needs_replace :=
      match ro_orders with
      | [o] =>
          decide (cfg.min_qty_step / 2 < |o.origQty - apos| ∨
            cfg.price_tick_size < |o.price - target_tp|)
      | _ => true
    if needs_replace then
      [Event.cancelAll,
       Event.tpOrder (if s.direction = some "short" then "BUY" else "SELL")
         apos target_tp]
    else []
  else []

/-- The tick's entry/extension decision, after the close check: flat
state consults drain mode, the cooldown and the band breaches; an active
basket extends against the mark price. -/
def tickDecide (cfg : SymbolConfig) (drain_mode : Bool) (env : TickEnv)
    (price mark_price : ℚ) (breach? : Option (Bool × Bool))
    (s : GridState) : GridState × List Event :=
  match breach? with
  | none => (s, [])
  | some breach =>
      if ¬ truthyStr s.direction then
        if drain_mode then (s, [])
        else if truthyQ s.cooldown_until_ts ∧ env.now < s.cooldown_until_ts.getD 0
        then (s, [])
        else if breach.1 then
          match startPosition cfg env.startEnv price "short" s with
          | (s2, evs, _) => (s2, evs)
        else if breach.2 then
          match startPosition cfg env.startEnv price "long" s with
          | (s2, evs, _) => (s2, evs)
        else (s, [])
      else
        match extendGridIfNeeded cfg env.extendEnv mark_price s with
        | (s2, evs, _) => (s2, evs)

/-- `GridBollingerStrategy.on_price`: one full tick, as the composition
of its blocks in source order.  Returns the state and the orders sent.
A raise from `get_position_info` (not wrapped in the source) aborts the
tick with the state untouched; raises escaping `_start_position` /
`_extend_grid_if_needed` end the tick at that point, exactly as the
runner's `try` would.  The logging blocks (`POS | ...`, order/fill/panel
snapshots) read state but never write it and place no orders, so they do
not appear. -/
def onPrice (cfg : SymbolConfig) (drain_mode : Bool) (env : TickEnv)
    (price : ℚ) (s : GridState) : GridState × List Event :=
  match env.posInfo with
  | none => (s, [])
  | some pos =>
      let position_qty := pos.positionAmt
      let mark_price := if pos.markPrice ≠ 0 then pos.markPrice else price
      let s := ensureBasketTime env.orderTs env.now s
      let s := tickPopulate cfg env.trades env.now position_qty s
      let s := tickFixLastEntry cfg pos.entryPrice s
      let s := tickUpdateStats position_qty mark_price pos.unRealizedProfit s
      let tpEvents := tickTpEvents cfg env.openOrders position_qty
        pos.entryPrice mark_price s
      let s := (maybeResetState cfg env.wallet env.now env.cbRaises env.rcRaises
        position_qty s).1
      match tickDecide cfg drain_mode env price mark_price env.bands s with
      | (s2, evs) => (s2, tpEvents ++ evs)

/-- `GridBollingerStrategy.force_seed`: start a basket at the given price
and direction unless one is already active. -/
def forceSeed (cfg : SymbolConfig) (env : StartEnv) (direction : String)
    (price : ℚ) (s : GridState) : GridState × List Event × Bool :=
  if truthyStr s.direction then (s, [], false)
  else startPosition cfg env price direction s

/-! ## The state invariant and reachability

The runner touches `GridState` through exactly three entry points:
`reconcile_position` at startup, `on_price` on every tick, and
`force_seed` for manual seeding (`_maybe_reset_state`, `_start_position`
and `_extend_grid_if_needed` run only inside these).  A state is
reachable when some sequence of these operations, each against an
arbitrary exchange snapshot, produces it from a fresh `GridState()`. -/

/-- The invariant claimed for every reachable state: an empty direction
coincides with a zero level count and with a missing next-entry anchor,
the level count respects the configured cap, the worst drawdown is never
positive, and a zero basket id only occurs while no open timestamp is
recorded. -/
def GridInvariant (cfg : SymbolConfig) (s : GridState) : Prop :=
  (s.direction = none ↔ s.levels_filled = 0) ∧
  (s.direction = none ↔ s.next_entry_price = none) ∧
  s.levels_filled ≤ cfg.max_levels ∧
  s.worst_drawdown ≤ 0 ∧
  (s.basket_id = 0 → s.basket_open_ts = none)

/-- The strengthening of `GridInvariant` the induction carries: the level
count is also never negative (every operation writes `0`, `1`, an
inferred count `≥ 1`, or increments a previous count). -/
def GridInvariantAux (cfg : SymbolConfig) (s : GridState) : Prop :=
  GridInvariant cfg s ∧ 0 ≤ s.levels_filled

/-- States reachable from a fresh `GridState()` through the strategy's
operations, each run against an arbitrary exchange snapshot. -/
inductive Reachable (cfg : SymbolConfig) : GridState → Prop where
  | init : Reachable cfg GridState.empty
  | reconcile (env : ReconcileEnv) (price : ℚ) (pos_info : Option PosInfo)
      (open_orders : Option (List OpenOrder)) (s : GridState) :
      Reachable cfg s →
      Reachable cfg (reconcilePosition cfg env price pos_info open_orders s)
  | tick (drain : Bool) (env : TickEnv) (price : ℚ) (s : GridState) :
      Reachable cfg s →
      Reachable cfg (onPrice cfg drain env price s).1
  | seed (env : StartEnv) (direction : String) (price : ℚ) (s : GridState) :
      Reachable cfg s →
      Reachable cfg (forceSeed cfg env direction price s).1

/-- Reachability restricted to ticks whose position snapshot is
consistent with a flat local state: whenever the local direction is
empty, the snapshot reports a zero entry price.  A flat account carries
no entry price, but `on_price` never checks this, and its backfill of
`last_entry_price` misbehaves when the snapshot disagrees — hence the
restriction, and the counterexample to the unrestricted statement. -/
inductive ReachableSafe (cfg : SymbolConfig) : GridState → Prop where
  | init : ReachableSafe cfg GridState.empty
  | reconcile (env : ReconcileEnv) (price : ℚ) (pos_info : Option PosInfo)
      (open_orders : Option (List OpenOrder)) (s : GridState) :
      ReachableSafe cfg s →
      ReachableSafe cfg (reconcilePosition cfg env price pos_info open_orders s)
  | tick (drain : Bool) (env : TickEnv) (price : ℚ) (s : GridState) :
      ReachableSafe cfg s →
      (∀ pos, env.posInfo = some pos → s.direction = none →
        pos.entryPrice = 0) →
      ReachableSafe cfg (onPrice cfg drain env price s).1
  | seed (env : StartEnv) (direction : String) (price : ℚ) (s : GridState) :
      ReachableSafe cfg s →
      ReachableSafe cfg (forceSeed cfg env direction price s).1

/-! # Theorems

Everything below this point is a theorem; all definitions are above. -/

theorem pyRound_sub_le (x : ℚ) : |(pyRound x : ℚ) - x| ≤ 1/2 := by
  unfold pyRound
  have hf : (⌊x⌋ : ℚ) ≤ x := Int.floor_le x
  have hf' : x < (⌊x⌋ : ℚ) + 1 := Int.lt_floor_add_one x
  by_cases h1 : x - (⌊x⌋ : ℚ) < 1/2
  · simp only [h1, if_true]
    rw [abs_le]; constructor <;> linarith
  · by_cases h2 : (1:ℚ)/2 < x - (⌊x⌋ : ℚ)
    · simp only [h1, if_false, h2, if_true]
      push_cast
      rw [abs_le]; constructor <;> linarith
    · have h3 : x - (⌊x⌋ : ℚ) = 1/2 := le_antisymm (not_lt.mp h2) (not_lt.mp h1)
      by_cases h4 : ⌊x⌋ % 2 = 0
      · rw [if_neg h1, if_neg h2, if_pos h4, abs_le]
        constructor <;> linarith
      · rw [if_neg h1, if_neg h2, if_neg h4]
        push_cast
        rw [abs_le]
        constructor <;> linarith


/-- `round_to_step` lands on a multiple of the step, at distance at most
half a step, whenever the step is positive. -/

theorem round_to_step_nearest (value step : ℚ) (hstep : 0 < step) :
    (∃ k : ℤ, round_to_step value step = (k : ℚ) * step) ∧
      |round_to_step value step - value| ≤ step / 2 := by
  unfold round_to_step
  rw [if_neg (not_le.mpr hstep)]
  refine ⟨⟨pyRound (value / step), rfl⟩, ?_⟩
  have h := pyRound_sub_le (value / step)
  have hne : step ≠ 0 := ne_of_gt hstep
  have : (pyRound (value / step) : ℚ) * step - value
      = ((pyRound (value / step) : ℚ) - value / step) * step := by
    field_simp
  rw [this, abs_mul, abs_of_pos hstep]
  calc |(pyRound (value / step) : ℚ) - value / step| * step
      ≤ (1/2) * step := by
        exact mul_le_mul_of_nonneg_right h (le_of_lt hstep)
    _ = step / 2 := by ring


/-- One loop pass of `level_qty` at counter value `c`. -/

theorem levelQtyAux_eq_step (re : ℤ) (m st : ℚ) (fuel : ℕ) (cl : ℤ) (q : ℚ) :
    levelQtyAux re m st (fuel + 1) cl q
      = levelStep re m st (cl + fuel) (levelQtyAux re m st fuel cl q) := by
  induction fuel generalizing cl q with
  | zero => simp [levelQtyAux, levelStep]
  | succ n ih =>
      show levelQtyAux re m st (n + 1) (cl + 1) _
        = levelStep re m st (cl + (n + 1)) (levelQtyAux re m st (n + 1) cl q)
      rw [ih]
      have : cl + 1 + (n : ℤ) = cl + ((n : ℕ) + 1 : ℕ) := by push_cast; ring
      rw [this]
      rfl


theorem le_round_up (v st : ℚ) : v ≤ round_up v st := by
  unfold round_up
  split
  · exact le_refl v
  · rename_i h
    have hst : 0 < st := lt_of_not_le h
    calc v = v / st * st := by field_simp
      _ ≤ (⌈v / st⌉ : ℚ) * st :=
        mul_le_mul_of_nonneg_right (Int.le_ceil _) (le_of_lt hst)


theorem levelStep_le (re : ℤ) (m st : ℚ) (c : ℤ) (q : ℚ)
    (hq : 0 ≤ q) (hm : 1 ≤ m) : q ≤ levelStep re m st c q := by
  unfold levelStep
  split
  · calc q = q * 1 := by ring
      _ ≤ q * m := mul_le_mul_of_nonneg_left hm hq
      _ ≤ round_up (q * m) st := le_round_up _ _
  · exact le_refl q


theorem le_levelQtyAux (re : ℤ) (m st : ℚ) (fuel : ℕ) (cl : ℤ) (q : ℚ)
    (hq : 0 ≤ q) (hm : 1 ≤ m) : q ≤ levelQtyAux re m st fuel cl q := by
  induction fuel generalizing cl q with
  | zero => exact le_refl q
  | succ n ih =>
      show q ≤ levelQtyAux re m st n (cl + 1) (levelStep re m st cl q)
      have h1 : q ≤ levelStep re m st cl q := levelStep_le re m st cl q hq hm
      exact le_trans h1 (ih (cl + 1) _ (le_trans hq h1))


theorem levelQtyAux_mono_fuel (re : ℤ) (m st : ℚ) (n fuel : ℕ) (cl : ℤ) (q : ℚ)
    (hq : 0 ≤ q) (hm : 1 ≤ m) :
    levelQtyAux re m st fuel cl q ≤ levelQtyAux re m st (fuel + n) cl q := by
  induction n with
  | zero => exact le_refl _
  | succ k ih =>
      have : fuel + (k + 1) = (fuel + k) + 1 := by omega
      rw [this, levelQtyAux_eq_step]
      refine le_trans ih (levelStep_le re m st _ _ ?_ hm)
      exact le_trans hq (le_levelQtyAux re m st (fuel + k) cl q hq hm)


/-- The rescale lands on a multiple of the step when the step is positive. -/

theorem round_up_isMultiple (v st : ℚ) (hst : 0 < st) :
    ∃ k : ℤ, round_up v st = (k : ℚ) * st := by
  refine ⟨⌈v / st⌉, ?_⟩
  unfold round_up
  rw [if_neg (not_le.mpr hst)]


theorem levelQtyAux_isMultiple (re : ℤ) (m st : ℚ) (hst : 0 < st)
    (fuel : ℕ) (cl : ℤ) (q : ℚ) (hq : ∃ k : ℤ, q = (k : ℚ) * st) :
    ∃ k : ℤ, levelQtyAux re m st fuel cl q = (k : ℚ) * st := by
  induction fuel generalizing cl q with
  | zero => exact hq
  | succ n ih =>
      show ∃ k : ℤ, levelQtyAux re m st n (cl + 1) (levelStep re m st cl q) = _
      refine ih (cl + 1) _ ?_
      unfold levelStep
      split
      · exact round_up_isMultiple _ st hst
      · exact hq


theorem levelQtyAux_isMultiple_of_fire (re : ℤ) (m st : ℚ) (hst : 0 < st)
    (fuel : ℕ) (cl : ℤ) (q : ℚ)
    (hfire : ∃ j : ℤ, cl ≤ j ∧ j < cl + fuel ∧ j % re = 0) :
    ∃ k : ℤ, levelQtyAux re m st fuel cl q = (k : ℚ) * st := by
  induction fuel generalizing cl q with
  | zero =>
      obtain ⟨j, h1, h2, _⟩ := hfire
      omega
  | succ n ih =>
      obtain ⟨j, h1, h2, h3⟩ := hfire
      show ∃ k : ℤ, levelQtyAux re m st n (cl + 1) (levelStep re m st cl q) = _
      by_cases hc : cl % re = 0
      · refine levelQtyAux_isMultiple re m st hst n (cl + 1) _ ?_
        unfold levelStep
        rw [if_pos hc]
        exact round_up_isMultiple _ st hst
      · refine ih (cl + 1) _ ⟨j, ?_, ?_, h3⟩
        · rcases eq_or_lt_of_le h1 with h | h
          · exact absurd (h ▸ h3) hc
          · omega
        · push_cast at h2 ⊢; omega


theorem level_qty_mono (base m st : ℚ) (re L L' : ℤ)
    (hbase : 0 ≤ base) (hm : 1 ≤ m) (hL : L ≤ L') :
    level_qty L base re m st ≤ level_qty L' base re m st := by
  unfold level_qty
  obtain ⟨n, hn⟩ : ∃ n : ℕ, (L' - 1).toNat = (L - 1).toNat + n :=
    ⟨(L' - 1).toNat - (L - 1).toNat, by omega⟩
  rw [hn]
  exact levelQtyAux_mono_fuel re m st n (L - 1).toNat 1 base hbase hm


theorem level_qty_multiple_of_fire (base m st : ℚ) (re L : ℤ)
    (hst : 0 < st) (hre : 1 ≤ re) (hL : re + 1 ≤ L) :
    ∃ k : ℤ, level_qty L base re m st = (k : ℚ) * st := by
  unfold level_qty
  refine levelQtyAux_isMultiple_of_fire re m st hst _ 1 base ⟨re, hre, ?_, Int.emod_self⟩
  omega


theorem level_qty_multiple_of_base (base m st : ℚ) (re L : ℤ)
    (hst : 0 < st) (hbase : ∃ k : ℤ, base = (k : ℚ) * st) :
    ∃ k : ℤ, level_qty L base re m st = (k : ℚ) * st :=
  levelQtyAux_isMultiple re m st hst _ 1 base hbase


/-- The well-formedness the running sums maintain: they agree with the
window's actual sums, and the window never overfills. -/

theorem BollingerBands.add_WF {p : ℕ} {k : ℚ} {bb bb' : BollingerBands}
    (hwf : bb.WF p k) (h : bb.add v = some bb') :
    bb'.WF p k ∧ bb'.window.length = min (bb.window.length + 1) p := by
  obtain ⟨hp, hk, hlen, hsum, hsq⟩ := hwf
  unfold BollingerBands.add at h
  by_cases hfull : bb.window.length = bb.period
  · rw [if_pos hfull] at h
    match hw : bb.window with
    | [] => rw [hw] at h; exact absurd h (by simp)
    | oldest :: rest =>
        rw [hw] at h
        have hb : bb' = { bb with
            window := rest ++ [v],
            sum := bb.sum - oldest + v,
            sumsq := bb.sumsq - oldest * oldest + v * v } := by
          exact (Option.some.injEq _ _ ▸ h).symm
        subst hb
        rw [hw] at hsum hsq hlen hfull
        simp only [List.length_cons] at hfull hlen
        refine ⟨⟨hp, hk, ?_, ?_, ?_⟩, ?_⟩
        · simp only [List.length_append, List.length_cons, List.length_nil]
          omega
        · rw [hsum]
          simp [List.sum_append, List.sum_cons]
        · rw [hsq]
          simp [List.map_append, List.sum_append, List.sum_cons]
        · simp only [List.length_append, List.length_cons, List.length_nil]
          omega
  · rw [if_neg hfull] at h
    have hb : bb' = { bb with
        window := bb.window ++ [v],
        sum := bb.sum + v,
        sumsq := bb.sumsq + v * v } := by
      exact (Option.some.injEq _ _ ▸ h).symm
    subst hb
    have hlt : bb.window.length < p := by
      rw [hp] at hfull; omega
    refine ⟨⟨hp, hk, ?_, ?_, ?_⟩, ?_⟩
    · simp only [List.length_append, List.length_cons, List.length_nil]
      omega
    · rw [hsum]; simp [List.sum_append]
    · rw [hsq]; simp [List.map_append, List.sum_append]
    · simp only [List.length_append, List.length_cons, List.length_nil]
      omega


/-- C6 (amended): under a sane grid shape — `baseQty ≥ 0`,
`multiplier ≥ 1`, `repeatEvery ≥ 1` — `level_qty` is non-decreasing in
the level index; and for `step > 0` its result is an exact multiple of
`step` for every level past the first rescale (`L ≥ repeatEvery + 1`),
and for every level whenever `baseQty` is itself a multiple of `step`
(levels up to `repeatEvery` return `baseQty` unrescaled). -/
theorem level_qty_spec (base m st : ℚ) (re L L' : ℤ)
    (hbase : 0 ≤ base) (hm : 1 ≤ m) (hre : 1 ≤ re) (hL : L ≤ L') :
    level_qty L base re m st ≤ level_qty L' base re m st ∧
      (0 < st → re + 1 ≤ L → ∃ k : ℤ, level_qty L base re m st = (k : ℚ) * st) ∧
      (0 < st → (∃ k : ℤ, base = (k : ℚ) * st) →
        ∃ k : ℤ, level_qty L base re m st = (k : ℚ) * st) :=
  ⟨level_qty_mono base m st re L L' hbase hm hL,
   fun hst hLre => level_qty_multiple_of_fire base m st re L hst hre hLre,
   fun hst hb => level_qty_multiple_of_base base m st re L hst hb⟩

/-- C6 as stated is false: with `baseQty = 1`, `repeatEvery = 1`,
`multiplier = 1/2`, `step = 1/2` the quantity shrinks from level 1 to
level 2; and with `baseQty = 7`, `step = 2` the level-1 quantity (7) is
not a multiple of the step. -/
theorem level_qty_claim_counterexample :
    level_qty 2 1 1 (1/2) (1/2) < level_qty 1 1 1 (1/2) (1/2) ∧
      ¬ ∃ k : ℤ, level_qty 1 7 2 (3/2) 2 = (k : ℚ) * 2 := by
  constructor
  · norm_num [level_qty, levelQtyAux, round_up]
  · rintro ⟨k, hk⟩
    have h7 : level_qty 1 7 2 (3/2) 2 = 7 := by
      norm_num [level_qty, levelQtyAux]
    rw [h7] at hk
    have h2 : ((2 * k : ℤ) : ℚ) = 7 := by push_cast; linarith
    have h3 : (2 * k : ℤ) = 7 := by exact_mod_cast h2
    omega

/-- Witness for `level_qty_spec` at the spec's own §8 scenario shape
(base 1, repeat-every 2, multiplier 3/2, step 1/10), levels 3 ≤ 5. -/
theorem level_qty_spec_witness :
    ((0:ℚ) ≤ 1 ∧ (1:ℚ) ≤ 3/2 ∧ (1:ℤ) ≤ 2 ∧ (3:ℤ) ≤ 5) ∧
      (level_qty 3 1 2 (3/2) (1/10) ≤ level_qty 5 1 2 (3/2) (1/10) ∧
        (0 < (1/10 : ℚ) → (2 : ℤ) + 1 ≤ 3 →
          ∃ k : ℤ, level_qty 3 1 2 (3/2) (1/10) = (k : ℚ) * (1/10)) ∧
        (0 < (1/10 : ℚ) → (∃ k : ℤ, (1 : ℚ) = (k : ℚ) * (1/10)) →
          ∃ k : ℤ, level_qty 3 1 2 (3/2) (1/10) = (k : ℚ) * (1/10))) :=
  ⟨⟨by norm_num, by norm_num, by norm_num, by norm_num⟩,
   level_qty_spec 1 (3/2) (1/10) 2 3 5 (by norm_num) (by norm_num)
     (by norm_num) (by norm_num)⟩

/-- C1 (amended): whenever the clamp is inactive — `q > 0`,
`lotSize > 0` and `q / lotSize ≥ 1e-9` — `_tp_price` returns exactly the
claimed formula `e ∓ delta` rounded to the price tick, where
`delta = target / q` and `target = (q / lotSize) · targetProfitPerLotUsd`;
and for a positive tick the result is an exact tick multiple within half
a tick of the raw value. -/
theorem tp_price_spec (cfg : SymbolConfig) (e q : ℚ) (d : String)
    (_hq : 0 < q) (_hlot : 0 < cfg.lot_size)
    (hclamp : 1/1000000000 ≤ q / cfg.lot_size) :
    tp_price cfg e q d
      = round_to_step
          (if d = "short" then e - (q / cfg.lot_size * cfg.target_profit_usd) / q
           else e + (q / cfg.lot_size * cfg.target_profit_usd) / q)
          cfg.price_tick_size ∧
      (0 < cfg.price_tick_size →
        (∃ k : ℤ, tp_price cfg e q d = (k : ℚ) * cfg.price_tick_size) ∧
          |tp_price cfg e q d
              - (if d = "short"
                 then e - (q / cfg.lot_size * cfg.target_profit_usd) / q
                 else e + (q / cfg.lot_size * cfg.target_profit_usd) / q)|
            ≤ cfg.price_tick_size / 2) := by
  have hmax : max (q / cfg.lot_size) (1/1000000000) = q / cfg.lot_size :=
    max_eq_left hclamp
  have heq : tp_price cfg e q d
      = round_to_step
          (if d = "short" then e - (q / cfg.lot_size * cfg.target_profit_usd) / q
           else e + (q / cfg.lot_size * cfg.target_profit_usd) / q)
          cfg.price_tick_size := by
    unfold tp_price
    rw [hmax]
  refine ⟨heq, fun htick => ?_⟩
  rw [heq]
  exact round_to_step_nearest _ cfg.price_tick_size htick

/-- C1 as stated is false at a sub-clamp quantity: with
`lotSize = targetProfitPerLotUsd = priceTick = 1`, entry 0, quantity
`1e-12`, direction long, the code prices the TP at 1000 (the `1e-9` lot
clamp inflates the delta) while the claimed formula gives 1. -/
theorem tp_price_claim_counterexample :
    tp_price ⟨0, 0, 1, 0, 0, ⟨0, 1, 0⟩, ⟨1, 0⟩, 0, 1, 1⟩ 0
        (1/1000000000000) "long" = 1000 ∧
      round_to_step
          (0 + ((1/1000000000000) / (1 : ℚ) * 1) / (1/1000000000000)) 1 = 1 ∧
      (1000 : ℚ) ≠ 1 := by
  have h : ("long" : String) ≠ "short" := by decide
  refine ⟨?_, ?_, by norm_num⟩
  · norm_num [tp_price, round_to_step, pyRound, if_neg h]
  · norm_num [round_to_step, pyRound]

/-- Witness for `tp_price_spec`: lot size 1, target 10 per lot, tick 1/2,
entry 100, quantity 2, long. -/
theorem tp_price_spec_witness :
    ((0:ℚ) < 2 ∧ (0:ℚ) < 1 ∧ (1/1000000000 : ℚ) ≤ 2 / 1) ∧
      (tp_price ⟨0, 0, 10, 0, 0, ⟨0, 1, 0⟩, ⟨1, 0⟩, 0, 1, 1/2⟩ 100 2 "long"
          = round_to_step
              (if "long" = "short" then 100 - (2 / (1:ℚ) * 10) / 2
               else 100 + (2 / (1:ℚ) * 10) / 2) (1/2) ∧
        (0 < (1/2 : ℚ) →
          (∃ k : ℤ,
            tp_price ⟨0, 0, 10, 0, 0, ⟨0, 1, 0⟩, ⟨1, 0⟩, 0, 1, 1/2⟩ 100 2 "long"
              = (k : ℚ) * (1/2)) ∧
            |tp_price ⟨0, 0, 10, 0, 0, ⟨0, 1, 0⟩, ⟨1, 0⟩, 0, 1, 1/2⟩ 100 2 "long"
                - (if "long" = "short" then 100 - (2 / (1:ℚ) * 10) / 2
                   else 100 + (2 / (1:ℚ) * 10) / 2)|
              ≤ (1/2) / 2)) :=
  ⟨⟨by norm_num, by norm_num, by norm_num⟩,
   tp_price_spec ⟨0, 0, 10, 0, 0, ⟨0, 1, 0⟩, ⟨1, 0⟩, 0, 1, 1/2⟩ 100 2 "long"
     (by norm_num) (by norm_num) (by norm_num)⟩

/-- C3: saving a `GridState` and loading it back yields the same state,
for every state (in particular every reachable one). -/
theorem state_store_roundtrip (s : GridState) :
    StateStore.load (some (StateStore.save s)) = s := rfl

theorem BollingerBands.addAll_WF {p : ℕ} {k : ℚ} {bb bb' : BollingerBands}
    (xs : List ℚ) (hwf : bb.WF p k) (h : bb.addAll xs = some bb') :
    bb'.WF p k ∧ bb'.window.length = min (bb.window.length + xs.length) p := by
  induction xs generalizing bb with
  | nil =>
      obtain rfl : bb = bb' := by simpa [BollingerBands.addAll] using h
      exact ⟨hwf, by simpa using hwf.2.2.1⟩
  | cons x xs ih =>
      unfold BollingerBands.addAll at h
      match ha : bb.add x with
      | none => rw [ha] at h; exact absurd h (by simp)
      | some bb1 =>
          rw [ha] at h
          obtain ⟨hwf1, hlen1⟩ := BollingerBands.add_WF hwf ha
          obtain ⟨hwf', hlen'⟩ := ih hwf1 h
          refine ⟨hwf', ?_⟩
          rw [hlen', hlen1]
          simp only [List.length_cons]
          omega


/-- C8 (amended): for a non-negative band multiplier, however many
samples are fed (and whenever `add` does not raise), `bands()` is `None`
exactly until `period` samples have been added, and afterwards returns
`(lower, mean, upper)` with `mean = sum/N`,
`variance = max(sumOfSquares/N − mean², 0)`, `upper = mean + k·√variance`,
`lower = mean − k·√variance` — the running sums agreeing with the window
— so `lower ≤ mean ≤ upper`. -/
theorem bollinger_bands_spec (p : ℕ) (k : ℚ) (xs : List ℚ)
    (bb' : BollingerBands) (hk : 0 ≤ k)
    (h : (BollingerBands.init p k).addAll xs = some bb') :
    (bb'.bands = none ↔ xs.length < p) ∧
      ∀ lower mean upper, bb'.bands = some (lower, mean, upper) →
        mean = ((bb'.window.sum / (p : ℚ) : ℚ) : ℝ) ∧
        upper = mean + (k : ℝ) * Real.sqrt
          ((max ((bb'.window.map fun x => x * x).sum / (p : ℚ)
              - bb'.window.sum / (p : ℚ) * (bb'.window.sum / (p : ℚ))) 0 : ℚ) : ℝ) ∧
        lower = mean - (k : ℝ) * Real.sqrt
          ((max ((bb'.window.map fun x => x * x).sum / (p : ℚ)
              - bb'.window.sum / (p : ℚ) * (bb'.window.sum / (p : ℚ))) 0 : ℚ) : ℝ) ∧
        lower ≤ mean ∧ mean ≤ upper := by
  have hwf0 : (BollingerBands.init p k).WF p k := by
    refine ⟨rfl, rfl, ?_, ?_, ?_⟩ <;> simp [BollingerBands.init]
  obtain ⟨⟨hp, hkk, _hle, hsum, hsq⟩, hlen⟩ := BollingerBands.addAll_WF xs hwf0 h
  have hlen' : bb'.window.length = min xs.length p := by
    simpa [BollingerBands.init] using hlen
  constructor
  · unfold BollingerBands.bands
    by_cases hfull : bb'.window.length = bb'.period
    · rw [if_pos hfull]
      simp only [reduceCtorEq, false_iff, not_lt]
      rw [hp] at hfull
      omega
    · rw [if_neg hfull]
      simp only [true_iff]
      rw [hp] at hfull
      omega
  · intro lower mean upper hb
    unfold BollingerBands.bands at hb
    by_cases hfull : bb'.window.length = bb'.period
    · rw [if_pos hfull] at hb
      simp only [Option.some.injEq, Prod.mk.injEq] at hb
      obtain ⟨hl, hm, hu⟩ := hb
      have hvar : bb'.sumsq / (bb'.period : ℚ)
            - bb'.sum / (bb'.period : ℚ) * (bb'.sum / (bb'.period : ℚ))
          = (bb'.window.map fun x => x * x).sum / (p : ℚ)
            - bb'.window.sum / (p : ℚ) * (bb'.window.sum / (p : ℚ)) := by
        rw [hsum, hsq, hp]
      have hsqrt : (0 : ℝ) ≤ (k : ℝ) * Real.sqrt
          ((max ((bb'.window.map fun x => x * x).sum / (p : ℚ)
              - bb'.window.sum / (p : ℚ) * (bb'.window.sum / (p : ℚ))) 0 : ℚ) : ℝ) :=
        mul_nonneg (by exact_mod_cast hk) (Real.sqrt_nonneg _)
      refine ⟨?_, ?_, ?_, ?_, ?_⟩
      · rw [← hm, hsum, hp]
      · rw [← hu, ← hm, hsum, hsq, hp, hkk]
      · rw [← hl, ← hm, hsum, hsq, hp, hkk]
      · rw [← hl, ← hm, hsum, hsq, hp, hkk]
        linarith
      · rw [← hu, ← hm, hsum, hsq, hp, hkk]
        linarith
    · rw [if_neg hfull] at hb
      exact absurd hb (by simp)

/-- C8 as stated is false for a negative configured multiplier: with
period 2 and `k = −1`, samples `[0, 2]` give `bands() = (2, 1, 0)` —
`lower = 2 > mean = 1`. -/
theorem bollinger_claim_counterexample :
    (BollingerBands.init 2 (-1)).addAll [0, 2] = some ⟨2, -1, [0, 2], 2, 4⟩ ∧
      BollingerBands.bands ⟨2, -1, [0, 2], 2, 4⟩ = some (2, 1, 0) ∧
      ¬ ((2 : ℝ) ≤ 1) := by
  refine ⟨by norm_num [BollingerBands.addAll, BollingerBands.add,
    BollingerBands.init], ?_, by norm_num⟩
  unfold BollingerBands.bands
  have hmax : max ((4 : ℚ) / (2:ℕ) - 2 / (2:ℕ) * (2 / (2:ℕ))) 0 = 1 := by norm_num
  norm_num [hmax, Real.sqrt_one]

/-- Witness for `bollinger_bands_spec` at the spec's §8 scenario:
period 3, multiplier 2, samples `[10, 10, 10]`. -/
theorem bollinger_bands_spec_witness :
    ((0:ℚ) ≤ 2 ∧ (BollingerBands.init 3 2).addAll [10, 10, 10]
        = some ⟨3, 2, [10, 10, 10], 30, 300⟩) ∧
      ((BollingerBands.bands ⟨3, 2, [10, 10, 10], 30, 300⟩ = none ↔
          ([10, 10, 10] : List ℚ).length < 3) ∧
        ∀ lower mean upper,
          BollingerBands.bands ⟨3, 2, [10, 10, 10], 30, 300⟩
              = some (lower, mean, upper) →
            mean = ((([10, 10, 10] : List ℚ).sum / (3 : ℚ) : ℚ) : ℝ) ∧
            upper = mean + ((2:ℚ) : ℝ) * Real.sqrt
              ((max ((([10, 10, 10] : List ℚ).map fun x => x * x).sum / (3 : ℚ)
                  - ([10, 10, 10] : List ℚ).sum / (3 : ℚ)
                    * (([10, 10, 10] : List ℚ).sum / (3 : ℚ))) 0 : ℚ) : ℝ) ∧
            lower = mean - ((2:ℚ) : ℝ) * Real.sqrt
              ((max ((([10, 10, 10] : List ℚ).map fun x => x * x).sum / (3 : ℚ)
                  - ([10, 10, 10] : List ℚ).sum / (3 : ℚ)
                    * (([10, 10, 10] : List ℚ).sum / (3 : ℚ))) 0 : ℚ) : ℝ) ∧
            lower ≤ mean ∧ mean ≤ upper) :=
  ⟨⟨by norm_num, by norm_num [BollingerBands.addAll, BollingerBands.add,
      BollingerBands.init]⟩,
   bollinger_bands_spec 3 2 [10, 10, 10] ⟨3, 2, [10, 10, 10], 30, 300⟩
     (by norm_num)
     (by norm_num [BollingerBands.addAll, BollingerBands.add,
       BollingerBands.init])⟩

/-! ### `rstrip` and decimal-rendering lemmas (for the ledger row) -/

theorem head?_dropWhile_not (p : Char → Bool) (l : List Char) (a : Char)
    (h : (l.dropWhile p).head? = some a) : p a = false := by
  induction l with
  | nil => simp [List.dropWhile] at h
  | cons x xs ih =>
      rw [List.dropWhile_cons] at h
      by_cases hx : p x
      · rw [if_pos hx] at h; exact ih h
      · rw [if_neg hx] at h
        simp only [List.head?_cons, Option.some.injEq] at h
        subst h
        simpa using hx

theorem dropTrailing_getLast?_ne (c : Char) (l : List Char) (a : Char)
    (h : (dropTrailing c l).getLast? = some a) : a ≠ c := by
  unfold dropTrailing at h
  rw [List.getLast?_reverse] at h
  have := head?_dropWhile_not (fun x => x == c) _ a h
  simpa using this

theorem dropTrailing_of_getLast?_ne (c : Char) (l : List Char) (a : Char)
    (h : l.getLast? = some a) (hne : a ≠ c) : dropTrailing c l = l := by
  unfold dropTrailing
  rw [← List.head?_reverse] at h
  match hrev : l.reverse with
  | [] => rw [hrev] at h; simp at h
  | x :: t =>
      rw [hrev] at h
      simp only [List.head?_cons, Option.some.injEq] at h
      subst h
      rw [List.dropWhile_cons, if_neg (by simpa using hne)]
      rw [← hrev, List.reverse_reverse]

theorem dropTrailing_append_of_ne_nil (c : Char) (xs ys : List Char)
    (h : dropTrailing c ys ≠ []) :
    dropTrailing c (xs ++ ys) = xs ++ dropTrailing c ys := by
  unfold dropTrailing at h ⊢
  rw [List.reverse_append, List.dropWhile_append]
  have hne : (List.dropWhile (fun x => x == c) ys.reverse).isEmpty = false := by
    rcases hd : List.dropWhile (fun x => x == c) ys.reverse with _ | ⟨y, t⟩
    · rw [hd] at h; simp at h
    · simp
  rw [hne]
  simp

theorem dropTrailing_append_of_nil (c : Char) (xs ys : List Char)
    (h : dropTrailing c ys = []) :
    dropTrailing c (xs ++ ys) = dropTrailing c xs := by
  unfold dropTrailing at h ⊢
  rw [List.reverse_append, List.dropWhile_append]
  have hnil : List.dropWhile (fun x => x == c) ys.reverse = [] := by
    have := congrArg List.reverse h
    simpa using this
  rw [hnil]
  simp

theorem mem_of_dropTrailing {c : Char} {l : List Char} {a : Char}
    (h : a ∈ dropTrailing c l) : a ∈ l := by
  unfold dropTrailing at h
  rw [List.mem_reverse] at h
  exact List.mem_reverse.mp (List.Sublist.mem h (List.dropWhile_sublist _))

theorem digitChar_lt_ten_facts (d : ℕ) (hd : d < 10) :
    digitChar d ≠ '.' ∧ digitChar d ≠ '-' := by
  interval_cases d <;> exact ⟨by decide, by decide⟩

theorem natChars_all_digits (n : ℕ) :
    ∀ ch ∈ natChars n, ∃ d, d < 10 ∧ ch = digitChar d := by
  intro ch hch
  unfold natChars at hch
  rw [List.mem_reverse, List.mem_map] at hch
  obtain ⟨d, hd, rfl⟩ := hch
  exact ⟨d, Nat.digits_lt_base (by norm_num) hd, rfl⟩

theorem padNat_all_digits (w n : ℕ) :
    ∀ ch ∈ padNat w n, ∃ d, d < 10 ∧ ch = digitChar d := by
  intro ch hch
  unfold padNat at hch
  rw [List.mem_append] at hch
  rcases hch with hch | hch
  · rw [List.eq_of_mem_replicate hch]
    exact ⟨0, by norm_num, rfl⟩
  · exact natChars_all_digits n ch hch

/-- The shape of `fmtFixedChars`: an optional sign, a nonempty block of
integer digits, the dot, then exactly `prec` fraction digits. -/
theorem fmtFixedChars_shape (prec : ℕ) (q : ℚ) :
    ∃ S I F : List Char,
      fmtFixedChars prec q = (S ++ I) ++ '.' :: F ∧
        (S = [] ∨ S = ['-']) ∧ I ≠ [] ∧
        (∀ ch ∈ I, ∃ d, d < 10 ∧ ch = digitChar d) ∧
        (∀ ch ∈ F, ∃ d, d < 10 ∧ ch = digitChar d) := by
  unfold fmtFixedChars
  refine ⟨(if pyRound (q * ((10 : ℚ) ^ prec)) < 0 then ['-'] else []),
    (if (pyRound (q * ((10 : ℚ) ^ prec))).natAbs / 10 ^ prec = 0 then ['0']
     else natChars ((pyRound (q * ((10 : ℚ) ^ prec))).natAbs / 10 ^ prec)),
    padNat prec ((pyRound (q * ((10 : ℚ) ^ prec))).natAbs % 10 ^ prec),
    by simp, ?_, ?_, ?_, padNat_all_digits _ _⟩
  · split
    · exact Or.inr rfl
    · exact Or.inl rfl
  · split
    · simp
    · rename_i hne
      intro hnil
      unfold natChars at hnil
      simp only [List.reverse_eq_nil_iff, List.map_eq_nil_iff] at hnil
      exact hne (by simpa [Nat.digits_eq_nil_iff_eq_zero] using hnil)
  · intro ch hch
    split at hch
    · rw [List.mem_singleton] at hch
      exact ⟨0, by norm_num, hch⟩
    · exact natChars_all_digits _ ch hch

theorem mem_of_getLast?_eq {l : List Char} {a : Char}
    (h : l.getLast? = some a) : a ∈ l := by
  have hm : a ∈ l.getLast? := by rw [Option.mem_def, h]
  obtain ⟨hne, heq⟩ := List.mem_getLast?_eq_getLast hm
  rw [heq]
  exact List.getLast_mem hne

/-- What `rstrip("0").rstrip(".")` leaves of a `%.6f` rendering: never
empty, never dot-terminated, and if a decimal point survives, no trailing
zero survives either. -/
theorem maxVolumeStr_spec (v : ℚ) :
    maxVolumeStr v ≠ "" ∧
      ('.' ∈ (maxVolumeStr v).toList →
        (maxVolumeStr v).toList.getLast? ≠ some '0' ∧
          (maxVolumeStr v).toList.getLast? ≠ some '.') := by
  obtain ⟨S, I, F, hshape, hS, hI, hIdig, hFdig⟩ := fmtFixedChars_shape 6 v
  have hA_ne : S ++ I ≠ [] := fun hc => hI (List.append_eq_nil.mp hc).2
  obtain ⟨a, ha⟩ : ∃ a, (S ++ I).getLast? = some a := by
    rcases hg : (S ++ I).getLast? with _ | a
    · exact absurd (List.getLast?_eq_none_iff.mp hg) hA_ne
    · exact ⟨a, rfl⟩
  have haI : a ∈ I := by
    rw [List.getLast?_append_of_ne_nil S hI] at ha
    exact mem_of_getLast?_eq ha
  obtain ⟨d, hd10, had⟩ := hIdig a haI
  have ha_dot : a ≠ '.' := had ▸ (digitChar_lt_ten_facts d hd10).1
  unfold maxVolumeStr
  by_cases hFnil : dropTrailing '0' F = []
  · have h1 : dropTrailing '0' (fmtFixedChars 6 v) = (S ++ I) ++ ['.'] := by
      rw [hshape,
        show (S ++ I) ++ '.' :: F = ((S ++ I) ++ ['.']) ++ F by simp,
        dropTrailing_append_of_nil '0' _ F hFnil]
      exact dropTrailing_of_getLast?_ne '0' _ '.' (List.getLast?_concat _)
        (by decide)
    have h2 : dropTrailing '.' ((S ++ I) ++ ['.']) = S ++ I := by
      rw [dropTrailing_append_of_nil '.' _ ['.'] (by decide)]
      exact dropTrailing_of_getLast?_ne '.' _ a ha ha_dot
    rw [h1, h2, if_neg hA_ne]
    refine ⟨?_, ?_⟩
    · intro hc
      exact hA_ne (congrArg String.data hc)
    · intro hdot
      exfalso
      have : ('.' : Char) ∈ S ++ I := hdot
      rw [List.mem_append] at this
      rcases this with hin | hin
      · rcases hS with rfl | rfl
        · simp at hin
        · rw [List.mem_singleton] at hin
          exact absurd hin (by decide)
      · obtain ⟨d', hd', hdd⟩ := hIdig '.' hin
        exact (digitChar_lt_ten_facts d' hd').1 hdd.symm
  · have h1 : dropTrailing '0' (fmtFixedChars 6 v)
        = ((S ++ I) ++ ['.']) ++ dropTrailing '0' F := by
      rw [hshape,
        show (S ++ I) ++ '.' :: F = ((S ++ I) ++ ['.']) ++ F by simp]
      exact dropTrailing_append_of_ne_nil '0' _ F hFnil
    obtain ⟨c, hc⟩ : ∃ c, (dropTrailing '0' F).getLast? = some c := by
      rcases hg : (dropTrailing '0' F).getLast? with _ | c
      · exact absurd (List.getLast?_eq_none_iff.mp hg) hFnil
      · exact ⟨c, rfl⟩
    have hc0 : c ≠ '0' := dropTrailing_getLast?_ne '0' F c hc
    have hcF : c ∈ F := mem_of_dropTrailing (mem_of_getLast?_eq hc)
    obtain ⟨d2, hd2, hcd⟩ := hFdig c hcF
    have hcdot : c ≠ '.' := hcd ▸ (digitChar_lt_ten_facts d2 hd2).1
    have hlast1 : (((S ++ I) ++ ['.']) ++ dropTrailing '0' F).getLast? = some c := by
      rw [List.getLast?_append_of_ne_nil _ hFnil]
      exact hc
    have h2 : dropTrailing '.' (((S ++ I) ++ ['.']) ++ dropTrailing '0' F)
        = ((S ++ I) ++ ['.']) ++ dropTrailing '0' F :=
      dropTrailing_of_getLast?_ne '.' _ c hlast1 hcdot
    have hbig_ne : ((S ++ I) ++ ['.']) ++ dropTrailing '0' F ≠ [] := by
      intro hc'
      exact hFnil (List.append_eq_nil.mp hc').2
    rw [h1, h2, if_neg hbig_ne]
    refine ⟨?_, fun _ => ⟨?_, ?_⟩⟩
    · intro hc'
      exact hbig_ne (congrArg String.data hc')
    · show (String.mk _).toList.getLast? ≠ some '0'
      rw [show (String.mk (((S ++ I) ++ ['.']) ++ dropTrailing '0' F)).toList
          = ((S ++ I) ++ ['.']) ++ dropTrailing '0' F from rfl, hlast1]
      simpa using hc0
    · show (String.mk _).toList.getLast? ≠ some '.'
      rw [show (String.mk (((S ++ I) ++ ['.']) ++ dropTrailing '0' F)).toList
          = ((S ++ I) ++ ['.']) ++ dropTrailing '0' F from rfl, hlast1]
      simpa using hcdot

theorem fmtFixed_ne_empty (prec : ℕ) (q : ℚ) : fmtFixed prec q ≠ "" := by
  obtain ⟨S, I, F, hshape, _, hI, _, _⟩ := fmtFixedChars_shape prec q
  unfold fmtFixed
  rw [hshape]
  intro hc
  have := congrArg String.data hc
  simp at this

/-- C7 (amended): the ledger header is exactly the source's 14 columns
`open_at, closed_at, basket_id, symbol, direction, levels,
max_volume_eth, margin_used, margin_level, grid_spacing_usd,
tp_per_lot_usd, holding_time_min, worst_drawdown, pnl`; each appended row
has one cell per column; the `pnl` cell is empty exactly when the PnL is
unknown; and the volume cell is the six-decimal rendering trimmed of
trailing zeros (never empty, and with no trailing zero while a decimal
point remains). -/
theorem basket_recorder_spec :
    BasketRecorder.HEADER
        = ["open_at", "closed_at", "basket_id", "symbol", "direction",
           "levels", "max_volume_eth", "margin_used", "margin_level",
           "grid_spacing_usd", "tp_per_lot_usd", "holding_time_min",
           "worst_drawdown", "pnl"] ∧
      ∀ (sym : String) (summary : BasketSummary) (now_iso : String),
        (BasketRecorder.append_row sym summary now_iso).length
            = BasketRecorder.HEADER.length ∧
          ((BasketRecorder.append_row sym summary now_iso).getLast? = some ""
            ↔ summary.pnl = none) ∧
          (BasketRecorder.append_row sym summary now_iso)[6]?
              = some (maxVolumeStr summary.max_volume_eth) ∧
          maxVolumeStr summary.max_volume_eth ≠ "" ∧
          ('.' ∈ (maxVolumeStr summary.max_volume_eth).toList →
            (maxVolumeStr summary.max_volume_eth).toList.getLast? ≠ some '0') := by
  refine ⟨rfl, fun sym summary now_iso =>
    ⟨by simp [BasketRecorder.append_row, BasketRecorder.HEADER], ?_,
     by simp [BasketRecorder.append_row],
     (maxVolumeStr_spec _).1, fun h => ((maxVolumeStr_spec _).2 h).1⟩⟩
  have hlast : (BasketRecorder.append_row sym summary now_iso).getLast?
      = some (match summary.pnl with
              | none => ""
              | some p => fmtFixed 2 p) := rfl
  rw [hlast]
  rcases hp : summary.pnl with _ | p
  · simp
  · simp only [Option.some.injEq, reduceCtorEq, iff_false]
    exact fun hc => fmtFixed_ne_empty 2 p hc

/-- C7 as stated is false: the code's header has 14 columns (including
margin, spacing, target and holding-time fields, and `max_volume_eth`
rather than `max_volume`), not the 9 columns the claim lists. -/
theorem basket_header_claim_counterexample :
    BasketRecorder.HEADER
        ≠ ["open_at", "closed_at", "basket_id", "symbol", "direction",
           "levels", "max_volume", "worst_drawdown", "pnl"] := by
  decide

/-- Witness for `basket_recorder_spec` at a concrete closed basket. -/
theorem basket_recorder_spec_witness :
    (BasketRecorder.append_row "ETHUSDT"
          ⟨251001120000, 3, 3/2, -1/25, none, some "long", none⟩ "t").length
        = BasketRecorder.HEADER.length ∧
      ((BasketRecorder.append_row "ETHUSDT"
            ⟨251001120000, 3, 3/2, -1/25, none, some "long", none⟩ "t").getLast?
          = some ""
        ↔ (BasketSummary.pnl
            ⟨251001120000, 3, 3/2, -1/25, none, some "long", none⟩) = none) ∧
      (BasketRecorder.append_row "ETHUSDT"
            ⟨251001120000, 3, 3/2, -1/25, none, some "long", none⟩ "t")[6]?
          = some (maxVolumeStr (3/2)) ∧
      maxVolumeStr (3/2) ≠ "" ∧
      ('.' ∈ (maxVolumeStr (3/2)).toList →
        (maxVolumeStr (3/2)).toList.getLast? ≠ some '0') :=
  basket_recorder_spec.2 "ETHUSDT"
    ⟨251001120000, 3, 3/2, -1/25, none, some "long", none⟩ "t"

/-- C2: when the exchange reports an (effectively) zero position while a
direction is locally active, `_maybe_reset_state` emits a summary whose
PnL is wallet minus the basket's start balance whenever both are known,
and — whatever the close-callback or ledger append do, including raising —
resets the state to the all-empty value, with the cooldown armed to
`now + cooldown_minutes · 60` exactly when a cooldown is configured. -/
theorem maybe_reset_state_spec (cfg : SymbolConfig) (wallet : Option ℚ)
    (now : ℚ) (cbRaises rcRaises : Bool) (position_qty : ℚ) (s : GridState)
    (hqty : |position_qty| < 1/100000000) (hdir : truthyStr s.direction) :
    (∀ w b, wallet = some w → s.basket_start_balance = some b →
      ∃ sm, (maybeResetState cfg wallet now cbRaises rcRaises position_qty s).2
          = some sm ∧ sm.pnl = some (w - b)) ∧
      (maybeResetState cfg wallet now cbRaises rcRaises position_qty s).1
        = { GridState.empty with cooldown_until_ts :=
            (if 0 < cfg.cooldown_minutes
             then some (now + (cfg.cooldown_minutes : ℚ) * 60) else none) } := by
  unfold maybeResetState
  rw [if_pos ⟨hqty, hdir⟩]
  constructor
  · intro w b hw hb
    refine ⟨_, rfl, ?_⟩
    simp [hw, hb]
  · by_cases hcd : 0 < cfg.cooldown_minutes
    · simp [hcd, GridState.reset]
    · simp [hcd, GridState.reset, GridState.empty]

/-- Witness for `maybe_reset_state_spec`, the spec's §8 scenario: long
basket, start balance 1000, wallet 1050, cooldown 5 minutes — the summary
carries pnl 50 and the state resets with the cooldown armed. -/
theorem maybe_reset_state_spec_witness :
    (|(0 : ℚ)| < 1/100000000 ∧
      truthyStr (GridState.direction
        ⟨some "long", some 100, some 99, 3, none, 251001120000, some 1000,
         5/2, -1/100, some 1700000000, [7], [8]⟩) = true) ∧
      (∃ sm, (maybeResetState
            ⟨10, 1, 1, 1, 1, ⟨1, 2, 1⟩, ⟨1, 0⟩, 5, 1, 1⟩ (some 1050) 2000
            true true 0
            ⟨some "long", some 100, some 99, 3, none, 251001120000, some 1000,
             5/2, -1/100, some 1700000000, [7], [8]⟩).2
          = some sm ∧ sm.pnl = some 50) ∧
      (maybeResetState ⟨10, 1, 1, 1, 1, ⟨1, 2, 1⟩, ⟨1, 0⟩, 5, 1, 1⟩
          (some 1050) 2000 true true 0
          ⟨some "long", some 100, some 99, 3, none, 251001120000, some 1000,
           5/2, -1/100, some 1700000000, [7], [8]⟩).1
        = { GridState.empty with cooldown_until_ts :=
            (if 0 < (5 : ℤ) then some (2000 + ((5 : ℤ) : ℚ) * 60) else none) } := by
  have h := maybe_reset_state_spec ⟨10, 1, 1, 1, 1, ⟨1, 2, 1⟩, ⟨1, 0⟩, 5, 1, 1⟩
    (some 1050) 2000 true true 0
    ⟨some "long", some 100, some 99, 3, none, 251001120000, some 1000,
     5/2, -1/100, some 1700000000, [7], [8]⟩
    (by norm_num) (by decide)
  refine ⟨⟨by norm_num, by decide⟩, ?_, h.2⟩
  obtain ⟨sm, hsm, hpnl⟩ := h.1 1050 1000 rfl rfl
  refine ⟨sm, hsm, ?_⟩
  rw [hpnl]
  norm_num

/-! ### Reconciliation lemmas -/

theorem populateApply_direction (cfg : SymbolConfig) (now : ℚ) (d : String)
    (tLast tFirst : Trade) (ids : List ℤ) (s : GridState) :
    (populateApply cfg now d tLast tFirst ids s).direction = s.direction := by
  simp only [populateApply]
  repeat' split
  all_goals rfl

theorem populateFromTrades_direction (cfg : SymbolConfig)
    (tr : Option (List Trade)) (now q : ℚ) (d : String) (s : GridState) :
    ((populateFromTrades cfg tr now q d s).1).direction = s.direction := by
  unfold populateFromTrades
  repeat' split
  all_goals first
    | rfl
    | exact populateApply_direction cfg now d _ _ _ s

theorem rebuildBasketId_direction (now : ℚ) (s : GridState) :
    (rebuildBasketId now s).direction = s.direction := by
  simp only [rebuildBasketId]
  repeat' split
  all_goals rfl

theorem rebuildTpIds_direction (oo : Option (List OpenOrder)) (s : GridState) :
    (rebuildTpIds oo s).direction = s.direction := by
  simp only [rebuildTpIds]
  repeat' split
  all_goals rfl

theorem reconcileRebuild_direction (cfg : SymbolConfig) (env : ReconcileEnv)
    (price : ℚ) (pos_info : Option PosInfo)
    (open_orders : Option (List OpenOrder)) (q : ℚ) (s : GridState) :
    (reconcileRebuild cfg env price pos_info open_orders q s).direction
      = some (if 0 < q then "long" else "short") := by
  simp only [reconcileRebuild]
  repeat' split
  all_goals first
    | rw [populateFromTrades_direction, rebuildTpIds_direction,
        rebuildBasketId_direction]
    | rw [rebuildTpIds_direction, rebuildBasketId_direction]

theorem reconcilePosition_of_flat (cfg : SymbolConfig) (env : ReconcileEnv)
    (price : ℚ) (pos_info : Option PosInfo)
    (open_orders : Option (List OpenOrder)) (s : GridState)
    (hq : |(match pos_info with
            | some p => p.positionAmt
            | none => 0 : ℚ)| < 1/100000000) :
    reconcilePosition cfg env price pos_info open_orders s
      = if truthyStr s.direction then s.reset else s := by
  unfold reconcilePosition
  rw [if_pos hq]

theorem reconcilePosition_of_live (cfg : SymbolConfig) (env : ReconcileEnv)
    (price : ℚ) (pos_info : Option PosInfo)
    (open_orders : Option (List OpenOrder)) (s : GridState)
    (hq : ¬ |(match pos_info with
              | some p => p.positionAmt
              | none => 0 : ℚ)| < 1/100000000)
    (hdir : truthyStr s.direction = true) :
    reconcilePosition cfg env price pos_info open_orders s = s := by
  unfold reconcilePosition
  rw [if_neg hq, if_pos hdir]

theorem reconcilePosition_of_rebuild (cfg : SymbolConfig) (env : ReconcileEnv)
    (price : ℚ) (pos_info : Option PosInfo)
    (open_orders : Option (List OpenOrder)) (s : GridState)
    (hq : ¬ |(match pos_info with
              | some p => p.positionAmt
              | none => 0 : ℚ)| < 1/100000000)
    (hdir : truthyStr s.direction = false) :
    reconcilePosition cfg env price pos_info open_orders s
      = reconcileRebuild cfg env price pos_info open_orders
          (match pos_info with
           | some p => p.positionAmt
           | none => 0) s := by
  unfold reconcilePosition
  rw [if_neg hq, if_neg (by simp [hdir])]
  congr 1
  cases pos_info <;> rfl

/-- C4: reconciliation is idempotent — on a fixed exchange snapshot
(position, open orders, trade history), a second `reconcile_position`
returns exactly the state the first one produced, whatever the clock does
between the two; and with a non-zero exchange position and a live local
direction, a single run already changes nothing. -/
theorem reconcile_position_idempotent (cfg : SymbolConfig)
    (env1 env2 : ReconcileEnv) (price : ℚ) (pos_info : Option PosInfo)
    (open_orders : Option (List OpenOrder)) (s : GridState) :
    reconcilePosition cfg env2 price pos_info open_orders
        (reconcilePosition cfg env1 price pos_info open_orders s)
      = reconcilePosition cfg env1 price pos_info open_orders s ∧
    (¬ |(match pos_info with
         | some p => p.positionAmt
         | none => 0 : ℚ)| < 1/100000000 →
      truthyStr s.direction →
      reconcilePosition cfg env1 price pos_info open_orders s = s) := by
  constructor
  · by_cases hq : |(match pos_info with
                    | some p => p.positionAmt
                    | none => 0 : ℚ)| < 1/100000000
    · -- flat on the exchange: the first run lands on a direction-free
      -- state, so the second run's reset guard cannot fire
      have hflat : truthyStr (reconcilePosition cfg env1 price pos_info
          open_orders s).direction = false := by
        rw [reconcilePosition_of_flat cfg env1 price pos_info open_orders s hq]
        by_cases hd : truthyStr s.direction
        · rw [if_pos hd]; rfl
        · rw [if_neg hd]; simpa using hd
      rw [reconcilePosition_of_flat cfg env2 price pos_info open_orders _ hq,
        if_neg (by simp [hflat])]
    · by_cases hdir : truthyStr s.direction
      · rw [reconcilePosition_of_live cfg env1 price pos_info open_orders s hq
          hdir,
          reconcilePosition_of_live cfg env2 price pos_info open_orders s hq
          hdir]
      · have hd0 : truthyStr s.direction = false := by simpa using hdir
        have htruthy : truthyStr (reconcilePosition cfg env1 price pos_info
            open_orders s).direction = true := by
          rw [reconcilePosition_of_rebuild cfg env1 price pos_info open_orders
            s hq hd0, reconcileRebuild_direction]
          split <;> rfl
        exact reconcilePosition_of_live cfg env2 price pos_info open_orders _
          hq htruthy
  · intro hq hdir
    exact reconcilePosition_of_live cfg env1 price pos_info open_orders s hq hdir

/-- Witness for `reconcile_position_idempotent`: a live long position of
one contract against a local state already long — both hypotheses of the
no-op conjunct hold and reconciliation leaves the state untouched. -/
theorem reconcile_position_idempotent_witness :
    (¬ |(match (some ⟨1, 100, 100, 0⟩ : Option PosInfo) with
         | some p => p.positionAmt
         | none => 0 : ℚ)| < 1/100000000 ∧
      truthyStr (GridState.direction
        ⟨some "long", some 100, some 99, 1, none, 251001120000, some 1000,
         1, 0, some 1700000000, [7], [8]⟩) = true) ∧
      reconcilePosition ⟨10, 1, 1, 1, 1, ⟨1, 2, 1⟩, ⟨1, 0⟩, 0, 1, 1⟩
          ⟨none, 0⟩ 100 (some ⟨1, 100, 100, 0⟩) none
          ⟨some "long", some 100, some 99, 1, none, 251001120000, some 1000,
           1, 0, some 1700000000, [7], [8]⟩
        = ⟨some "long", some 100, some 99, 1, none, 251001120000, some 1000,
           1, 0, some 1700000000, [7], [8]⟩ :=
  ⟨⟨by norm_num, by decide⟩,
   (reconcile_position_idempotent ⟨10, 1, 1, 1, 1, ⟨1, 2, 1⟩, ⟨1, 0⟩, 0, 1, 1⟩
       ⟨none, 0⟩ ⟨none, 0⟩ 100 (some ⟨1, 100, 100, 0⟩) none
       ⟨some "long", some 100, some 99, 1, none, 251001120000, some 1000,
        1, 0, some 1700000000, [7], [8]⟩).2
     (by norm_num) (by decide)⟩

theorem if_lt_max (a b : ℚ) : (if a < b then b else a) = max a b := by
  by_cases h : a < b
  · rw [if_pos h, max_eq_right (le_of_lt h)]
  · rw [if_neg h, max_eq_left (le_of_not_lt h)]

/-- C10: every entry market order — the level-1 opener and every
extension — is sized as the maximum of the level quantity and the
min-notional quantity `round_up(min_notional_usd / price, min_qty_step)`;
consequently (witnessed by the concrete third conjunct) the ordered
quantity can exceed `levelQty(L)`, and reconciliation's greedy
`levelQty`-sum inference then overcounts the filled levels (it infers 2
levels from the position one bumped level-1 order creates). -/
theorem min_notional_bump_spec :
    (∀ (cfg : SymbolConfig) (env : StartEnv) (price : ℚ) (direction : String)
        (s : GridState),
      ∃ rest, (startPosition cfg env price direction s).2.1
          = Event.entryOrder (if direction = "short" then "SELL" else "BUY")
              (max (level_qty 1 cfg.grid.base_qty cfg.grid.repeat_every
                 cfg.grid.multiplier cfg.min_qty_step)
                (round_up (cfg.min_notional_usd / price) cfg.min_qty_step))
            :: rest) ∧
    (∀ (cfg : SymbolConfig) (env : ExtendEnv) (price : ℚ) (fuel : ℕ)
        (s : GridState),
      (extendLoop cfg env price (fuel + 1) s).2.1 ≠ [] →
      ∃ rest, (extendLoop cfg env price (fuel + 1) s).2.1
          = Event.entryOrder
              (if s.direction = some "short" then "SELL" else "BUY")
              (max (level_qty (s.levels_filled + 1) cfg.grid.base_qty
                 cfg.grid.repeat_every cfg.grid.multiplier cfg.min_qty_step)
                (round_up (cfg.min_notional_usd / price) cfg.min_qty_step))
            :: rest) ∧
    (max (level_qty 1 1 2 1 1) (round_up ((2:ℚ) / 1) 1) = 2 ∧
      level_qty 1 1 2 1 1 = 1 ∧
      inferLevel ⟨10, 0, 0, 1, 2, ⟨1, 2, 1⟩, ⟨1, 0⟩, 0, 1, 1⟩ 2 = 2) := by
  refine ⟨?_, ?_, ?_, ?_, ?_⟩
  · intro cfg env price direction s
    simp only [startPosition, if_lt_max]
    split
    · exact ⟨[], rfl⟩
    · exact ⟨_, rfl⟩
  · intro cfg env price fuel s
    simp only [extendLoop, if_lt_max]
    repeat' split
    all_goals intro hne
    all_goals first
      | exact absurd rfl hne
      | exact ⟨[], rfl⟩
      | exact ⟨_, rfl⟩
  · norm_num [level_qty, levelQtyAux, round_up]
  · norm_num [level_qty, levelQtyAux]
  · norm_num [inferLevel, inferLevelLoop, level_qty, levelQtyAux]

/-- Witness for `min_notional_bump_spec`: a long basket at level 1 whose
extension places an order (the placement call raises, leaving exactly the
entry order in the trace), discharging the non-empty-trace hypothesis. -/
theorem min_notional_bump_spec_witness :
    ((extendLoop ⟨10, 0, 0, 1, 2, ⟨1, 2, 1⟩, ⟨1, 0⟩, 0, 1, 1⟩
        ⟨fun _ => ⟨none, none, none, none⟩, fun _ => none⟩ 5 1
        ⟨some "long", some 10, some 10, 1, none, 1, none, 1, 0, some 1, [], []⟩).2.1
      ≠ []) ∧
      ∃ rest, (extendLoop ⟨10, 0, 0, 1, 2, ⟨1, 2, 1⟩, ⟨1, 0⟩, 0, 1, 1⟩
          ⟨fun _ => ⟨none, none, none, none⟩, fun _ => none⟩ 5 1
          ⟨some "long", some 10, some 10, 1, none, 1, none, 1, 0, some 1, [], []⟩).2.1
        = Event.entryOrder
            (if (GridState.direction
                ⟨some "long", some 10, some 10, 1, none, 1, none, 1, 0, some 1,
                 [], []⟩) = some "short" then "SELL" else "BUY")
            (max (level_qty ((GridState.levels_filled
                 ⟨some "long", some 10, some 10, 1, none, 1, none, 1, 0, some 1,
                  [], []⟩) + 1) 1 2 1 1)
              (round_up ((2:ℚ) / 5) 1))
          :: rest := by
  have hne : (extendLoop ⟨10, 0, 0, 1, 2, ⟨1, 2, 1⟩, ⟨1, 0⟩, 0, 1, 1⟩
      ⟨fun _ => ⟨none, none, none, none⟩, fun _ => none⟩ 5 1
      ⟨some "long", some 10, some 10, 1, none, 1, none, 1, 0, some 1, [], []⟩).2.1
      ≠ [] := by
    norm_num [extendLoop, execMarket, truthyStr]
  exact ⟨hne, min_notional_bump_spec.2.1
    ⟨10, 0, 0, 1, 2, ⟨1, 2, 1⟩, ⟨1, 0⟩, 0, 1, 1⟩
    ⟨fun _ => ⟨none, none, none, none⟩, fun _ => none⟩ 5 0
    ⟨some "long", some 10, some 10, 1, none, 1, none, 1, 0, some 1, [], []⟩ hne⟩

/-! ### Per-stage facts about the tick pipeline -/

theorem populateApply_proj (cfg : SymbolConfig) (now : ℚ) (d : String)
    (tLast tFirst : Trade) (ids : List ℤ) (s : GridState) :
    (populateApply cfg now d tLast tFirst ids s).direction = s.direction ∧
    (populateApply cfg now d tLast tFirst ids s).cooldown_until_ts
        = s.cooldown_until_ts ∧
    (populateApply cfg now d tLast tFirst ids s).levels_filled
        = s.levels_filled ∧
    (populateApply cfg now d tLast tFirst ids s).worst_drawdown
        = s.worst_drawdown ∧
    (populateApply cfg now d tLast tFirst ids s).max_volume = s.max_volume ∧
    (populateApply cfg now d tLast tFirst ids s).basket_start_balance
        = s.basket_start_balance := by
  simp only [populateApply]
  repeat' split
  all_goals exact ⟨rfl, rfl, rfl, rfl, rfl, rfl⟩

theorem populateFromTrades_proj (cfg : SymbolConfig)
    (tr : Option (List Trade)) (now q : ℚ) (d : String) (s : GridState) :
    ((populateFromTrades cfg tr now q d s).1).direction = s.direction ∧
    ((populateFromTrades cfg tr now q d s).1).cooldown_until_ts
        = s.cooldown_until_ts ∧
    ((populateFromTrades cfg tr now q d s).1).levels_filled
        = s.levels_filled ∧
    ((populateFromTrades cfg tr now q d s).1).worst_drawdown
        = s.worst_drawdown ∧
    ((populateFromTrades cfg tr now q d s).1).max_volume = s.max_volume ∧
    ((populateFromTrades cfg tr now q d s).1).basket_start_balance
        = s.basket_start_balance := by
  unfold populateFromTrades
  repeat' split
  all_goals first
    | exact ⟨rfl, rfl, rfl, rfl, rfl, rfl⟩
    | exact populateApply_proj cfg now d _ _ _ s

theorem ensureBasketTime_proj (ts : Option ℚ) (now : ℚ) (s : GridState) :
    (ensureBasketTime ts now s).direction = s.direction ∧
    (ensureBasketTime ts now s).cooldown_until_ts = s.cooldown_until_ts ∧
    (ensureBasketTime ts now s).levels_filled = s.levels_filled ∧
    (ensureBasketTime ts now s).worst_drawdown = s.worst_drawdown ∧
    (ensureBasketTime ts now s).last_entry_price = s.last_entry_price ∧
    (ensureBasketTime ts now s).next_entry_price = s.next_entry_price ∧
    (ensureBasketTime ts now s).max_volume = s.max_volume ∧
    (ensureBasketTime ts now s).basket_start_balance
        = s.basket_start_balance ∧
    (ensureBasketTime ts now s).entry_order_ids = s.entry_order_ids := by
  simp only [ensureBasketTime]
  repeat' split
  all_goals exact ⟨rfl, rfl, rfl, rfl, rfl, rfl, rfl, rfl, rfl⟩

theorem tickPopulate_proj (cfg : SymbolConfig) (tr : Option (List Trade))
    (now q : ℚ) (s : GridState) :
    (tickPopulate cfg tr now q s).direction = s.direction ∧
    (tickPopulate cfg tr now q s).cooldown_until_ts = s.cooldown_until_ts ∧
    (tickPopulate cfg tr now q s).levels_filled = s.levels_filled ∧
    (tickPopulate cfg tr now q s).worst_drawdown = s.worst_drawdown ∧
    (tickPopulate cfg tr now q s).max_volume = s.max_volume ∧
    (tickPopulate cfg tr now q s).basket_start_balance
        = s.basket_start_balance := by
  simp only [tickPopulate]
  split
  · exact populateFromTrades_proj cfg tr now _ _ s
  · exact ⟨rfl, rfl, rfl, rfl, rfl, rfl⟩

theorem tickFixLastEntry_proj (cfg : SymbolConfig) (entry_price : ℚ)
    (s : GridState) :
    (tickFixLastEntry cfg entry_price s).direction = s.direction ∧
    (tickFixLastEntry cfg entry_price s).cooldown_until_ts
        = s.cooldown_until_ts ∧
    (tickFixLastEntry cfg entry_price s).levels_filled = s.levels_filled ∧
    (tickFixLastEntry cfg entry_price s).worst_drawdown = s.worst_drawdown ∧
    (tickFixLastEntry cfg entry_price s).max_volume = s.max_volume ∧
    (tickFixLastEntry cfg entry_price s).basket_id = s.basket_id ∧
    (tickFixLastEntry cfg entry_price s).basket_open_ts = s.basket_open_ts ∧
    (tickFixLastEntry cfg entry_price s).basket_start_balance
        = s.basket_start_balance := by
  simp only [tickFixLastEntry]
  repeat' split
  all_goals exact ⟨rfl, rfl, rfl, rfl, rfl, rfl, rfl, rfl⟩

theorem tickUpdateStats_proj (q m u : ℚ) (s : GridState) :
    (tickUpdateStats q m u s).direction = s.direction ∧
    (tickUpdateStats q m u s).cooldown_until_ts = s.cooldown_until_ts ∧
    (tickUpdateStats q m u s).levels_filled = s.levels_filled ∧
    (tickUpdateStats q m u s).last_entry_price = s.last_entry_price ∧
    (tickUpdateStats q m u s).next_entry_price = s.next_entry_price ∧
    (tickUpdateStats q m u s).basket_id = s.basket_id ∧
    (tickUpdateStats q m u s).basket_open_ts = s.basket_open_ts ∧
    (tickUpdateStats q m u s).basket_start_balance
        = s.basket_start_balance := by
  simp only [tickUpdateStats]
  repeat' split
  all_goals exact ⟨rfl, rfl, rfl, rfl, rfl, rfl, rfl, rfl⟩

theorem maybeResetState_not_triggered (cfg : SymbolConfig) (wallet : Option ℚ)
    (now : ℚ) (cb rc : Bool) (q : ℚ) (s : GridState)
    (h : ¬ (|q| < 1/100000000 ∧ truthyStr s.direction)) :
    (maybeResetState cfg wallet now cb rc q s).1 = s := by
  unfold maybeResetState
  rw [if_neg h]

theorem tickTpEvents_no_entry (cfg : SymbolConfig)
    (open_orders : List OpenOrder) (q e m : ℚ) (s : GridState)
    (side : String) (qty : ℚ) :
    Event.entryOrder side qty ∉ tickTpEvents cfg open_orders q e m s := by
  simp only [tickTpEvents]
  repeat' split
  all_goals simp

/-- C9: ticks processed while flat place no entry order and stay flat
when drain mode is on or the cooldown lies in the future (for any band
breach whatsoever); an active basket's tick is entirely independent of
the drain flag; and a basket whose position has reached zero still closes
(summary, reset, cooldown) under drain mode. -/
theorem on_price_suppression (cfg : SymbolConfig) (drain : Bool)
    (env : TickEnv) (price : ℚ) (s : GridState) :
    (s.direction = none →
      (drain = true ∨
        (0 ≤ env.now ∧ ∃ cd, s.cooldown_until_ts = some cd ∧ env.now < cd)) →
      (∀ side q, Event.entryOrder side q ∉ (onPrice cfg drain env price s).2) ∧
        (onPrice cfg drain env price s).1.direction = none) ∧
    (∀ pos, env.posInfo = some pos → 1/100000000 ≤ |pos.positionAmt| →
      truthyStr s.direction = true →
      onPrice cfg true env price s = onPrice cfg false env price s) ∧
    (∀ pos, env.posInfo = some pos → |pos.positionAmt| < 1/100000000 →
      truthyStr s.direction = true → drain = true →
      (onPrice cfg drain env price s).1
        = { GridState.empty with cooldown_until_ts :=
            (if 0 < cfg.cooldown_minutes
             then some (env.now + (cfg.cooldown_minutes : ℚ) * 60)
             else none) }) := by
  refine ⟨?_, ?_, ?_⟩
  · intro hdir hsupp
    rcases hpos : env.posInfo with _ | pos
    · constructor
      · intro side q
        simp [onPrice, hpos]
      · simp [onPrice, hpos, hdir]
    · simp only [onPrice, hpos]
      set s1 := ensureBasketTime env.orderTs env.now s with hs1
      set s2 := tickPopulate cfg env.trades env.now pos.positionAmt s1 with hs2
      set s3 := tickFixLastEntry cfg pos.entryPrice s2 with hs3
      set mark := if pos.markPrice ≠ 0 then pos.markPrice else price with hmark
      set s4 := tickUpdateStats pos.positionAmt mark pos.unRealizedProfit s3
        with hs4
      set tpe := tickTpEvents cfg env.openOrders pos.positionAmt
        pos.entryPrice mark s4 with htpe
      have h1d : s1.direction = none := by
        rw [hs1, (ensureBasketTime_proj _ _ _).1, hdir]
      have h2d : s2.direction = none := by
        rw [hs2, (tickPopulate_proj _ _ _ _ _).1, h1d]
      have h3d : s3.direction = none := by
        rw [hs3, (tickFixLastEntry_proj _ _ _).1, h2d]
      have h4d : s4.direction = none := by
        rw [hs4, (tickUpdateStats_proj _ _ _ _).1, h3d]
      have h1c : s1.cooldown_until_ts = s.cooldown_until_ts := by
        rw [hs1]; exact (ensureBasketTime_proj _ _ _).2.1
      have h2c : s2.cooldown_until_ts = s.cooldown_until_ts := by
        rw [hs2, (tickPopulate_proj _ _ _ _ _).2.1, h1c]
      have h3c : s3.cooldown_until_ts = s.cooldown_until_ts := by
        rw [hs3, (tickFixLastEntry_proj _ _ _).2.1, h2c]
      have h4c : s4.cooldown_until_ts = s.cooldown_until_ts := by
        rw [hs4, (tickUpdateStats_proj _ _ _ _).2.1, h3c]
      have h5 : (maybeResetState cfg env.wallet env.now env.cbRaises
          env.rcRaises pos.positionAmt s4).1 = s4 :=
        maybeResetState_not_triggered _ _ _ _ _ _ _
          (by rw [h4d]; simp [truthyStr])
      rw [h5]
      have hdec : tickDecide cfg drain env price mark env.bands s4
          = (s4, []) := by
        rcases env.bands with _ | breach
        · rfl
        · simp only [tickDecide]
          rw [if_pos (by rw [h4d]; simp [truthyStr])]
          rcases hsupp with hdrain | ⟨hnow, cd, hcd, hlt⟩
          · rw [hdrain]
            simp
          · have hcd4 : s4.cooldown_until_ts = some cd := by rw [h4c, hcd]
            by_cases hdm : drain
            · rw [hdm]; simp
            · have : drain = false := by simpa using hdm
              rw [this]
              simp only [Bool.false_eq_true, if_false]
              rw [if_pos ?_]
              constructor
              · rw [hcd4]
                simp only [truthyQ]
                have : cd ≠ 0 := by intro h0; rw [h0] at hlt; linarith
                simpa using this
              · rw [hcd4]
                simpa using hlt
      rw [hdec]
      refine ⟨fun side q => ?_, h4d⟩
      rw [htpe]
      simpa using tickTpEvents_no_entry cfg env.openOrders pos.positionAmt
        pos.entryPrice mark s4 side q
  · intro pos hpos hq hdir
    simp only [onPrice, hpos]
    set s1 := ensureBasketTime env.orderTs env.now s with hs1
    set s2 := tickPopulate cfg env.trades env.now pos.positionAmt s1 with hs2
    set s3 := tickFixLastEntry cfg pos.entryPrice s2 with hs3
    set mark := if pos.markPrice ≠ 0 then pos.markPrice else price with hmark
    set s4 := tickUpdateStats pos.positionAmt mark pos.unRealizedProfit s3
      with hs4
    have h4d : s4.direction = s.direction := by
      rw [hs4, (tickUpdateStats_proj _ _ _ _).1, hs3,
        (tickFixLastEntry_proj _ _ _).1, hs2, (tickPopulate_proj _ _ _ _ _).1,
        hs1, (ensureBasketTime_proj _ _ _).1]
    have h5 : (maybeResetState cfg env.wallet env.now env.cbRaises
        env.rcRaises pos.positionAmt s4).1 = s4 :=
      maybeResetState_not_triggered _ _ _ _ _ _ _
        (fun hc => absurd hc.1 (not_lt.mpr hq))
    rw [h5]
    have hdec : tickDecide cfg true env price mark env.bands s4
        = tickDecide cfg false env price mark env.bands s4 := by
      rcases env.bands with _ | breach
      · rfl
      · simp only [tickDecide]
        rw [if_neg (by rw [h4d, hdir]; simp), if_neg (by rw [h4d, hdir]; simp)]
    rw [hdec]
  · intro pos hpos hq hdir hdrain
    simp only [onPrice, hpos]
    set s1 := ensureBasketTime env.orderTs env.now s with hs1
    set s2 := tickPopulate cfg env.trades env.now pos.positionAmt s1 with hs2
    set s3 := tickFixLastEntry cfg pos.entryPrice s2 with hs3
    set mark := if pos.markPrice ≠ 0 then pos.markPrice else price with hmark
    set s4 := tickUpdateStats pos.positionAmt mark pos.unRealizedProfit s3
      with hs4
    have h4d : s4.direction = s.direction := by
      rw [hs4, (tickUpdateStats_proj _ _ _ _).1, hs3,
        (tickFixLastEntry_proj _ _ _).1, hs2, (tickPopulate_proj _ _ _ _ _).1,
        hs1, (ensureBasketTime_proj _ _ _).1]
    have h5 : (maybeResetState cfg env.wallet env.now env.cbRaises
        env.rcRaises pos.positionAmt s4).1
        = { GridState.empty with cooldown_until_ts :=
            (if 0 < cfg.cooldown_minutes
             then some (env.now + (cfg.cooldown_minutes : ℚ) * 60)
             else none) } := by
      unfold maybeResetState
      rw [if_pos ⟨hq, by rw [h4d]; exact hdir⟩]
      by_cases hcd : 0 < cfg.cooldown_minutes
      · simp [hcd, GridState.reset]
      · simp [hcd, GridState.reset, GridState.empty]
    rw [h5]
    have hdec : ∀ s0 : GridState, s0.direction = none →
        tickDecide cfg drain env price mark env.bands s0 = (s0, []) := by
      intro s0 h0
      rcases env.bands with _ | breach
      · rfl
      · simp only [tickDecide]
        rw [if_pos (by rw [h0]; simp [truthyStr]), hdrain]
        simp
    rw [hdec _ (by simp [GridState.empty])]

/-- Witness for `on_price_suppression`: a flat state under drain mode,
with both bands breached hard — no entry order goes out and the state
stays flat. -/
theorem on_price_suppression_witness :
    (GridState.direction GridState.empty = none ∧ (true : Bool) = true) ∧
      ((∀ side q, Event.entryOrder side q
          ∉ (onPrice ⟨10, 1, 1, 1, 1, ⟨1, 2, 1⟩, ⟨1, 0⟩, 0, 1, 1⟩ true
              ⟨[], some ⟨0, 0, 0, 0⟩, none, none, none, false, false,
               some (true, true), ⟨none, ⟨none, none, none, none⟩, none, 0⟩,
               ⟨fun _ => ⟨none, none, none, none⟩, fun _ => none⟩, 0⟩
              5 GridState.empty).2) ∧
        (onPrice ⟨10, 1, 1, 1, 1, ⟨1, 2, 1⟩, ⟨1, 0⟩, 0, 1, 1⟩ true
            ⟨[], some ⟨0, 0, 0, 0⟩, none, none, none, false, false,
             some (true, true), ⟨none, ⟨none, none, none, none⟩, none, 0⟩,
             ⟨fun _ => ⟨none, none, none, none⟩, fun _ => none⟩, 0⟩
            5 GridState.empty).1.direction = none) :=
  ⟨⟨rfl, rfl⟩,
   (on_price_suppression ⟨10, 1, 1, 1, 1, ⟨1, 2, 1⟩, ⟨1, 0⟩, 0, 1, 1⟩ true
       ⟨[], some ⟨0, 0, 0, 0⟩, none, none, none, false, false,
        some (true, true), ⟨none, ⟨none, none, none, none⟩, none, 0⟩,
        ⟨fun _ => ⟨none, none, none, none⟩, fun _ => none⟩, 0⟩
       5 GridState.empty).1 rfl (Or.inl rfl)⟩

/-! ### C5: the reachable-state invariant -/

theorem civilFromTs_month_pos (ts : ℚ) : 1 ≤ (civilFromTs ts).month := by
  simp only [civilFromTs]
  split <;> omega

theorem newBasketId_pos (ts : ℚ) : 0 < newBasketId ts := by
  have h := civilFromTs_month_pos ts
  simp only [newBasketId]
  have h2 : 0 < ((civilFromTs ts).year % 100) * 10000000000
      + (civilFromTs ts).month * 100000000 + (civilFromTs ts).day * 1000000
      + (civilFromTs ts).hour * 10000 + (civilFromTs ts).minute * 100
      + (civilFromTs ts).second := by omega
  exact_mod_cast h2

theorem new_basket_id_pos (o : Option ℚ) (now : ℚ) :
    0 < new_basket_id o now := by
  unfold new_basket_id
  exact newBasketId_pos _

theorem truthyStr_ne_none {o : Option String} (h : truthyStr o = true) :
    o ≠ none := by
  cases o with
  | none => exact absurd h (by simp [truthyStr])
  | some s => exact fun hc => Option.noConfusion hc

theorem truthyQ_of_int_div (t : ℤ) (ht : t ≠ 0) :
    truthyQ (some ((t : ℚ) / 1000)) = true := by
  have h1 : ((t : ℚ)) / 1000 ≠ 0 := by
    rw [div_ne_zero_iff]
    exact ⟨by exact_mod_cast ht, by norm_num⟩
  simp [truthyQ, h1]

theorem place_tp_fields (cfg : SymbolConfig) (tpResp : Option (Option ℤ))
    (e q : ℚ) (d : String) (s : GridState) :
    ((place_tp cfg tpResp e q d s).1).direction = s.direction ∧
    ((place_tp cfg tpResp e q d s).1).levels_filled = s.levels_filled ∧
    ((place_tp cfg tpResp e q d s).1).next_entry_price
        = s.next_entry_price ∧
    ((place_tp cfg tpResp e q d s).1).worst_drawdown = s.worst_drawdown ∧
    ((place_tp cfg tpResp e q d s).1).basket_id = s.basket_id ∧
    ((place_tp cfg tpResp e q d s).1).basket_open_ts = s.basket_open_ts := by
  unfold place_tp
  repeat' split
  all_goals exact ⟨rfl, rfl, rfl, rfl, rfl, rfl⟩

theorem GridInvariantAux_place_tp (cfg : SymbolConfig)
    (tpResp : Option (Option ℤ)) (e q : ℚ) (d : String) (s : GridState)
    (h : GridInvariantAux cfg s) :
    GridInvariantAux cfg (place_tp cfg tpResp e q d s).1 := by
  obtain ⟨h1, h2, h3, h4, h5, h6⟩ := place_tp_fields cfg tpResp e q d s
  unfold GridInvariantAux GridInvariant at h ⊢
  rw [h1, h2, h3, h4, h5, h6]
  exact h

theorem GridInvariantAux_empty (cfg : SymbolConfig)
    (hmax : 0 ≤ cfg.max_levels) : GridInvariantAux cfg GridState.empty :=
  ⟨⟨iff_of_true rfl rfl, iff_of_true rfl rfl, hmax, le_refl 0, fun _ => rfl⟩,
   le_refl 0⟩

theorem ite_basket_id_ne (x : GridState) (v : ℤ) (hv : v ≠ 0) :
    (if x.basket_id = 0 then { x with basket_id := v } else x).basket_id
      ≠ 0 := by
  split
  · exact hv
  · assumption

theorem GridInvariantAux_startWrap (cfg : SymbolConfig) (s5 : GridState)
    (hmax : 1 ≤ cfg.max_levels) (hdir : s5.direction ≠ none)
    (hlev : s5.levels_filled = 1) (hnext : s5.next_entry_price ≠ none)
    (hid : s5.basket_id ≠ 0) (w : Option ℚ) (mv : ℚ) :
    GridInvariantAux cfg
      { s5 with
        basket_start_balance := w
        max_volume := mv
        worst_drawdown := 0 } := by
  refine ⟨⟨iff_of_false hdir ?_, iff_of_false hdir hnext, ?_, le_refl 0,
    fun h0 => absurd h0 hid⟩, ?_⟩
  · show ¬ s5.levels_filled = 0
    omega
  · show s5.levels_filled ≤ cfg.max_levels
    omega
  · show 0 ≤ s5.levels_filled
    omega

theorem GridInvariantAux_set_next (cfg : SymbolConfig) (s : GridState)
    (v : ℚ) (hdir : truthyStr s.direction = true)
    (h : GridInvariantAux cfg s) :
    GridInvariantAux cfg { s with next_entry_price := some v } :=
  ⟨⟨h.1.1, iff_of_false (fun hn => truthyStr_ne_none hdir hn)
      (Option.some_ne_none _), h.1.2.2.1, h.1.2.2.2.1, h.1.2.2.2.2⟩, h.2⟩

theorem GridInvariantAux_set_ids (cfg : SymbolConfig) (s : GridState)
    (ids : List ℤ) (h : GridInvariantAux cfg s) :
    GridInvariantAux cfg { s with entry_order_ids := ids } :=
  ⟨⟨h.1.1, h.1.2.1, h.1.2.2.1, h.1.2.2.2.1, h.1.2.2.2.2⟩, h.2⟩

theorem GridInvariantAux_extendFill (cfg : SymbolConfig) (s2 : GridState)
    (hdir : s2.direction ≠ none) (h : GridInvariantAux cfg s2)
    (lvl : ℤ) (hlvl1 : 1 ≤ lvl) (hlvl2 : lvl ≤ cfg.max_levels)
    (lp nv mv : ℚ) :
    GridInvariantAux cfg
      { { s2 with
          levels_filled := lvl
          last_entry_price := some lp
          next_entry_price := some nv } with max_volume := mv } := by
  refine ⟨⟨iff_of_false hdir ?_, iff_of_false hdir (Option.some_ne_none _),
    ?_, h.1.2.2.2.1, h.1.2.2.2.2⟩, ?_⟩
  · show ¬ lvl = 0
    omega
  · show lvl ≤ cfg.max_levels
    exact hlvl2
  · show (0:ℤ) ≤ lvl
    omega

theorem extendApply_direction (cfg : SymbolConfig) (level : ℤ) (fill : Fill)
    (s : GridState) : (extendApply cfg level fill s).direction = s.direction := by
  simp only [extendApply]
  repeat' split
  all_goals rfl

theorem extendApply_inv (cfg : SymbolConfig) (level : ℤ) (fill : Fill)
    (s : GridState) (hdir : s.direction ≠ none) (h : GridInvariantAux cfg s)
    (hl1 : 1 ≤ level) (hl2 : level ≤ cfg.max_levels) :
    GridInvariantAux cfg (extendApply cfg level fill s) := by
  simp only [extendApply]
  apply GridInvariantAux_extendFill
  · split
    · exact hdir
    · exact hdir
  · split
    · exact GridInvariantAux_set_ids cfg _ _ h
    · exact h
  · exact hl1
  · exact hl2

theorem extendLoop_inv (cfg : SymbolConfig) (env : ExtendEnv) (price : ℚ) :
    ∀ (fuel : ℕ) (s : GridState), truthyStr s.direction = true →
      GridInvariantAux cfg s →
      GridInvariantAux cfg (extendLoop cfg env price fuel s).1 := by
  intro fuel
  induction fuel with
  | zero => intro s _ h; exact h
  | succ n ih =>
    intro s hdir h
    simp only [extendLoop]
    split
    · exact h
    · rename_i last hlast
      split
      all_goals
        (split
         · exact GridInvariantAux_set_next cfg s _ hdir h
         · split
           · exact GridInvariantAux_set_next cfg s _ hdir h
           · rename_i hse hcap
             split
             · exact GridInvariantAux_set_next cfg s _ hdir h
             · rename_i fill hfill
               split
               all_goals
                 (split
                  · apply GridInvariantAux_place_tp
                    apply extendApply_inv
                    · exact truthyStr_ne_none hdir
                    · exact GridInvariantAux_set_next cfg s _ hdir h
                    · show 1 ≤ s.levels_filled + 1
                      have h2 := h.2
                      omega
                    · show s.levels_filled + 1 ≤ cfg.max_levels
                      omega
                  · apply ih
                    · rw [(place_tp_fields _ _ _ _ _ _).1,
                        extendApply_direction]
                      exact hdir
                    · apply GridInvariantAux_place_tp
                      apply extendApply_inv
                      · exact truthyStr_ne_none hdir
                      · exact GridInvariantAux_set_next cfg s _ hdir h
                      · show 1 ≤ s.levels_filled + 1
                        have h2 := h.2
                        omega
                      · show s.levels_filled + 1 ≤ cfg.max_levels
                        omega))

theorem extendGridIfNeeded_inv (cfg : SymbolConfig) (env : ExtendEnv)
    (price : ℚ) (s : GridState) (h : GridInvariantAux cfg s) :
    GridInvariantAux cfg (extendGridIfNeeded cfg env price s).1 := by
  unfold extendGridIfNeeded
  split
  · exact h
  · rename_i hdir
    split
    · exact h
    · exact extendLoop_inv cfg env price _ s (by simpa using hdir) h

theorem startPosition_inv (cfg : SymbolConfig) (env : StartEnv) (price : ℚ)
    (d : String) (s : GridState) (hmax : 1 ≤ cfg.max_levels)
    (h : GridInvariantAux cfg s) :
    GridInvariantAux cfg (startPosition cfg env price d s).1 := by
  simp only [startPosition]
  split
  · exact h
  · apply GridInvariantAux_place_tp
    apply GridInvariantAux_startWrap
    · exact hmax
    · repeat' split
      all_goals exact Option.some_ne_none _
    · repeat' split
      all_goals rfl
    · repeat' split
      all_goals exact Option.some_ne_none _
    · exact ite_basket_id_ne _ _ (new_basket_id_pos _ _).ne'

theorem le_inferLevelLoop (cfg : SymbolConfig) (a : ℚ) :
    ∀ (fuel : ℕ) (level : ℤ) (cum : ℚ),
      level ≤ inferLevelLoop cfg a fuel level cum := by
  intro fuel
  induction fuel with
  | zero => intro level cum; exact le_refl level
  | succ n ih =>
    intro level cum
    simp only [inferLevelLoop]
    split
    · exact le_trans (by omega) (ih (level + 1) _)
    · exact le_refl level

theorem inferLevelLoop_le (cfg : SymbolConfig) (a : ℚ) :
    ∀ (fuel : ℕ) (level : ℤ) (cum : ℚ), level ≤ cfg.max_levels →
      inferLevelLoop cfg a fuel level cum ≤ cfg.max_levels := by
  intro fuel
  induction fuel with
  | zero => intro level cum h; exact h
  | succ n ih =>
    intro level cum h
    simp only [inferLevelLoop]
    split
    · rename_i hc
      exact ih (level + 1) _ (by have := hc.2; omega)
    · exact h

theorem inferLevel_le (cfg : SymbolConfig) (a : ℚ)
    (h : 0 ≤ cfg.max_levels) : inferLevel cfg a ≤ cfg.max_levels :=
  inferLevelLoop_le cfg a _ 0 0 h

theorem inferLevel_pos (cfg : SymbolConfig) (a : ℚ)
    (hmax : 1 ≤ cfg.max_levels) (ha : 1/1000000000 < a) :
    1 ≤ inferLevel cfg a := by
  unfold inferLevel
  obtain ⟨k, hk⟩ : ∃ k, cfg.max_levels.toNat = k + 1 :=
    ⟨cfg.max_levels.toNat - 1, by omega⟩
  rw [hk]
  simp only [inferLevelLoop]
  rw [if_pos ⟨by linarith, by omega⟩]
  exact le_inferLevelLoop cfg a k 1 _

theorem rebuildLevel_bounds (cfg : SymbolConfig) (a : ℚ)
    (oo : Option (List OpenOrder)) (hmax : 1 ≤ cfg.max_levels)
    (ha : 1/1000000000 < a) :
    1 ≤ rebuildLevel cfg a oo ∧ rebuildLevel cfg a oo ≤ cfg.max_levels := by
  have h1 := inferLevel_pos cfg a hmax ha
  have h2 := inferLevel_le cfg a (by omega)
  simp only [rebuildLevel]
  split
  · split
    · exact ⟨h1, h2⟩
    · split
      · rename_i hlt
        exact ⟨le_min (by omega) hmax, min_le_right _ _⟩
      · exact ⟨h1, h2⟩
  · exact ⟨h1, h2⟩

theorem rebuildBasketId_fields (now : ℚ) (s : GridState) :
    (rebuildBasketId now s).direction = s.direction ∧
    (rebuildBasketId now s).levels_filled = s.levels_filled ∧
    (rebuildBasketId now s).last_entry_price = s.last_entry_price ∧
    (rebuildBasketId now s).next_entry_price = s.next_entry_price ∧
    (rebuildBasketId now s).worst_drawdown = s.worst_drawdown := by
  simp only [rebuildBasketId]
  repeat' split
  all_goals exact ⟨rfl, rfl, rfl, rfl, rfl⟩

theorem rebuildBasketId_ne_zero (now : ℚ) (s : GridState) :
    (rebuildBasketId now s).basket_id ≠ 0 := by
  simp only [rebuildBasketId]
  repeat' split
  all_goals first
    | exact (new_basket_id_pos _ _).ne'
    | assumption

theorem rebuildTpIds_fields (oo : Option (List OpenOrder)) (s : GridState) :
    (rebuildTpIds oo s).direction = s.direction ∧
    (rebuildTpIds oo s).levels_filled = s.levels_filled ∧
    (rebuildTpIds oo s).last_entry_price = s.last_entry_price ∧
    (rebuildTpIds oo s).next_entry_price = s.next_entry_price ∧
    (rebuildTpIds oo s).worst_drawdown = s.worst_drawdown ∧
    (rebuildTpIds oo s).basket_id = s.basket_id ∧
    (rebuildTpIds oo s).basket_open_ts = s.basket_open_ts := by
  simp only [rebuildTpIds]
  repeat' split
  all_goals exact ⟨rfl, rfl, rfl, rfl, rfl, rfl, rfl⟩

theorem populateApply_next_ne (cfg : SymbolConfig) (now : ℚ) (d : String)
    (tLast tFirst : Trade) (ids : List ℤ) (s : GridState)
    (h : s.next_entry_price ≠ none) :
    (populateApply cfg now d tLast tFirst ids s).next_entry_price ≠ none := by
  simp only [populateApply]
  repeat' split
  all_goals first
    | exact h
    | exact Option.some_ne_none _

theorem populateApply_basket (cfg : SymbolConfig) (now : ℚ) (d : String)
    (tLast tFirst : Trade) (ids : List ℤ) (s : GridState)
    (h : s.basket_id = 0 → s.basket_open_ts = none) :
    (populateApply cfg now d tLast tFirst ids s).basket_id = 0 →
      (populateApply cfg now d tLast tFirst ids s).basket_open_ts = none := by
  simp only [populateApply]
  repeat' split
  all_goals intro h0
  all_goals first
    | exact absurd h0 (new_basket_id_pos _ _).ne'
    | exact h h0
    | exact absurd (truthyQ_of_int_div tFirst.time (by assumption))
        (by assumption)

theorem populateFromTrades_next_ne (cfg : SymbolConfig)
    (tr : Option (List Trade)) (now q : ℚ) (d : String) (s : GridState)
    (h : s.next_entry_price ≠ none) :
    ((populateFromTrades cfg tr now q d s).1).next_entry_price ≠ none := by
  unfold populateFromTrades
  repeat' split
  all_goals first
    | exact h
    | exact populateApply_next_ne _ _ _ _ _ _ _ h

theorem populateFromTrades_basket (cfg : SymbolConfig)
    (tr : Option (List Trade)) (now q : ℚ) (d : String) (s : GridState)
    (h : s.basket_id = 0 → s.basket_open_ts = none) :
    ((populateFromTrades cfg tr now q d s).1).basket_id = 0 →
      ((populateFromTrades cfg tr now q d s).1).basket_open_ts = none := by
  unfold populateFromTrades
  repeat' split
  all_goals first
    | exact h
    | exact populateApply_basket _ _ _ _ _ _ _ h

theorem GridInvariantAux_populate (cfg : SymbolConfig)
    (tr : Option (List Trade)) (now q : ℚ) (d : String) (s : GridState)
    (hd : s.direction ≠ none) (h : GridInvariantAux cfg s) :
    GridInvariantAux cfg (populateFromTrades cfg tr now q d s).1 := by
  obtain ⟨p1, p2, p3, p4, p5, p6⟩ := populateFromTrades_proj cfg tr now q d s
  refine ⟨⟨?_, ?_, ?_, ?_, ?_⟩, ?_⟩
  · rw [p1, p3]
    exact h.1.1
  · rw [p1]
    refine iff_of_false hd (populateFromTrades_next_ne cfg tr now q d s ?_)
    exact fun hn => hd (h.1.2.1.mpr hn)
  · rw [p3]
    exact h.1.2.2.1
  · rw [p4]
    exact h.1.2.2.2.1
  · exact populateFromTrades_basket cfg tr now q d s h.1.2.2.2.2
  · rw [p3]
    exact h.2

theorem GridInvariantAux_populate_ite (cfg : SymbolConfig)
    (tr : Option (List Trade)) (now q : ℚ) (d : String) (C : Prop)
    [Decidable C] (s : GridState) (hd : s.direction ≠ none)
    (h : GridInvariantAux cfg s) :
    GridInvariantAux cfg
      (if C then (populateFromTrades cfg tr now q d s).1 else s) := by
  split
  · exact GridInvariantAux_populate cfg tr now q d s hd h
  · exact h

theorem GridInvariantAux_rebuildCore (cfg : SymbolConfig) (s : GridState)
    (d : String) (lvl : ℤ) (lp nv : ℚ) (now : ℚ)
    (oo : Option (List OpenOrder)) (h4 : s.worst_drawdown ≤ 0)
    (hl1 : 1 ≤ lvl) (hl2 : lvl ≤ cfg.max_levels) :
    GridInvariantAux cfg
      (rebuildTpIds oo (rebuildBasketId now
        { { { { s with direction := some d } with levels_filled := lvl }
            with last_entry_price := some lp }
          with next_entry_price := some nv })) := by
  refine ⟨⟨?_, ?_, ?_, ?_, ?_⟩, ?_⟩
  · rw [(rebuildTpIds_fields _ _).1, (rebuildBasketId_fields _ _).1,
      (rebuildTpIds_fields _ _).2.1, (rebuildBasketId_fields _ _).2.1]
    exact iff_of_false (Option.some_ne_none _) (show ¬ lvl = 0 by omega)
  · rw [(rebuildTpIds_fields _ _).1, (rebuildBasketId_fields _ _).1,
      (rebuildTpIds_fields _ _).2.2.2.1, (rebuildBasketId_fields _ _).2.2.2.1]
    exact iff_of_false (Option.some_ne_none _) (Option.some_ne_none _)
  · rw [(rebuildTpIds_fields _ _).2.1, (rebuildBasketId_fields _ _).2.1]
    exact hl2
  · rw [(rebuildTpIds_fields _ _).2.2.2.2.1,
      (rebuildBasketId_fields _ _).2.2.2.2]
    exact h4
  · intro h0
    rw [(rebuildTpIds_fields _ _).2.2.2.2.2.1] at h0
    exact absurd h0 (rebuildBasketId_ne_zero _ _)
  · rw [(rebuildTpIds_fields _ _).2.1, (rebuildBasketId_fields _ _).2.1]
    show (0:ℤ) ≤ lvl
    omega

theorem reconcileRebuild_inv (cfg : SymbolConfig) (env : ReconcileEnv)
    (price : ℚ) (pos_info : Option PosInfo)
    (open_orders : Option (List OpenOrder)) (q : ℚ) (s : GridState)
    (hmax : 1 ≤ cfg.max_levels) (hq : 1/1000000000 < |q|)
    (h : GridInvariantAux cfg s) :
    GridInvariantAux cfg
      (reconcileRebuild cfg env price pos_info open_orders q s) := by
  obtain ⟨hl1, hl2⟩ := rebuildLevel_bounds cfg |q| open_orders hmax hq
  simp only [reconcileRebuild]
  apply GridInvariantAux_populate_ite
  · rw [(rebuildTpIds_fields _ _).1, (rebuildBasketId_fields _ _).1]
    exact Option.some_ne_none _
  · exact GridInvariantAux_rebuildCore cfg s _ _ _ _ env.now open_orders
      h.1.2.2.2.1 hl1 hl2

theorem reconcilePosition_inv (cfg : SymbolConfig) (env : ReconcileEnv)
    (price : ℚ) (pos_info : Option PosInfo)
    (open_orders : Option (List OpenOrder)) (s : GridState)
    (hmax : 1 ≤ cfg.max_levels) (h : GridInvariantAux cfg s) :
    GridInvariantAux cfg
      (reconcilePosition cfg env price pos_info open_orders s) := by
  rcases pos_info with _ | p
  · rw [reconcilePosition_of_flat cfg env price none open_orders s
      (by norm_num)]
    split
    · exact GridInvariantAux_empty cfg (by omega)
    · exact h
  · by_cases hq : |p.positionAmt| < 1/100000000
    · rw [reconcilePosition_of_flat cfg env price (some p) open_orders s hq]
      split
      · exact GridInvariantAux_empty cfg (by omega)
      · exact h
    · by_cases hdir : truthyStr s.direction
      · rw [reconcilePosition_of_live cfg env price (some p) open_orders s hq
          hdir]
        exact h
      · rw [reconcilePosition_of_rebuild cfg env price (some p) open_orders s
          hq (by simpa using hdir)]
        refine reconcileRebuild_inv cfg env price (some p) open_orders _ s
          hmax ?_ h
        exact lt_of_lt_of_le (by norm_num) (not_lt.mp hq)

theorem forceSeed_inv (cfg : SymbolConfig) (env : StartEnv) (d : String)
    (price : ℚ) (s : GridState) (hmax : 1 ≤ cfg.max_levels)
    (h : GridInvariantAux cfg s) :
    GridInvariantAux cfg (forceSeed cfg env d price s).1 := by
  unfold forceSeed
  split
  · exact h
  · exact startPosition_inv cfg env price d s hmax h

theorem ensureBasketTime_inv (cfg : SymbolConfig) (ts : Option ℚ) (now : ℚ)
    (s : GridState) (h : GridInvariantAux cfg s) :
    GridInvariantAux cfg (ensureBasketTime ts now s) := by
  obtain ⟨e1, e2, e3, e4, e5, e6, e7, e8, e9⟩ := ensureBasketTime_proj ts now s
  refine ⟨⟨?_, ?_, ?_, ?_, ?_⟩, ?_⟩
  · rw [e1, e3]
    exact h.1.1
  · rw [e1, e6]
    exact h.1.2.1
  · rw [e3]
    exact h.1.2.2.1
  · rw [e4]
    exact h.1.2.2.2.1
  · simp only [ensureBasketTime]
    repeat' split
    all_goals intro h0
    all_goals first
      | exact h.1.2.2.2.2 h0
      | exact absurd h0 (new_basket_id_pos _ _).ne'
  · rw [e3]
    exact h.2

theorem tickPopulate_inv (cfg : SymbolConfig) (tr : Option (List Trade))
    (now q : ℚ) (s : GridState) (h : GridInvariantAux cfg s) :
    GridInvariantAux cfg (tickPopulate cfg tr now q s) := by
  simp only [tickPopulate]
  split
  · rename_i hc
    exact GridInvariantAux_populate cfg tr now _ _ s
      (truthyStr_ne_none hc.2.2) h
  · exact h

theorem tickFixLastEntry_inv (cfg : SymbolConfig) (e : ℚ) (s : GridState)
    (hsafe : s.direction = none → e = 0) (h : GridInvariantAux cfg s) :
    GridInvariantAux cfg (tickFixLastEntry cfg e s) := by
  simp only [tickFixLastEntry]
  split
  · rename_i hg
    have hd : s.direction ≠ none := fun hn => hg.2 (hsafe hn)
    split
    · exact ⟨⟨h.1.1, iff_of_false hd (Option.some_ne_none _), h.1.2.2.1,
        h.1.2.2.2.1, h.1.2.2.2.2⟩, h.2⟩
    · exact ⟨⟨h.1.1, h.1.2.1, h.1.2.2.1, h.1.2.2.2.1, h.1.2.2.2.2⟩, h.2⟩
  · exact h

theorem tickUpdateStats_inv (cfg : SymbolConfig) (q m u : ℚ)
    (s : GridState) (h : GridInvariantAux cfg s) :
    GridInvariantAux cfg (tickUpdateStats q m u s) := by
  simp only [tickUpdateStats]
  split
  · split
    · rename_i hnot hdd
      split
      · exact ⟨⟨h.1.1, h.1.2.1, h.1.2.2.1,
          le_of_lt (lt_of_lt_of_le hdd h.1.2.2.2.1), h.1.2.2.2.2⟩, h.2⟩
      · exact ⟨⟨h.1.1, h.1.2.1, h.1.2.2.1,
          le_of_lt (lt_of_lt_of_le hdd h.1.2.2.2.1), h.1.2.2.2.2⟩, h.2⟩
    · split
      · exact ⟨⟨h.1.1, h.1.2.1, h.1.2.2.1, h.1.2.2.2.1, h.1.2.2.2.2⟩, h.2⟩
      · exact h
  · exact h

theorem maybeResetState_inv (cfg : SymbolConfig) (wallet : Option ℚ)
    (now : ℚ) (cb rc : Bool) (q : ℚ) (s : GridState)
    (hmax : 0 ≤ cfg.max_levels) (h : GridInvariantAux cfg s) :
    GridInvariantAux cfg (maybeResetState cfg wallet now cb rc q s).1 := by
  unfold maybeResetState
  split
  · repeat' split
    all_goals
      refine ⟨⟨iff_of_true rfl rfl, iff_of_true rfl rfl, hmax, le_refl 0,
        fun _ => rfl⟩, le_refl 0⟩
  · exact h

theorem tickDecide_inv (cfg : SymbolConfig) (drain : Bool) (env : TickEnv)
    (price mark : ℚ) (breach? : Option (Bool × Bool)) (s : GridState)
    (hmax : 1 ≤ cfg.max_levels) (h : GridInvariantAux cfg s) :
    GridInvariantAux cfg
      (tickDecide cfg drain env price mark breach? s).1 := by
  rcases breach? with _ | breach
  · exact h
  · simp only [tickDecide]
    split
    · split
      · exact h
      · split
        · exact h
        · split
          · exact startPosition_inv cfg env.startEnv price _ s hmax h
          · split
            · exact startPosition_inv cfg env.startEnv price _ s hmax h
            · exact h
    · exact extendGridIfNeeded_inv cfg env.extendEnv mark s h

theorem onPrice_inv (cfg : SymbolConfig) (drain : Bool) (env : TickEnv)
    (price : ℚ) (s : GridState) (hmax : 1 ≤ cfg.max_levels)
    (hsafe : ∀ pos, env.posInfo = some pos → s.direction = none →
      pos.entryPrice = 0)
    (h : GridInvariantAux cfg s) :
    GridInvariantAux cfg (onPrice cfg drain env price s).1 := by
  rcases hpos : env.posInfo with _ | pos
  · simp only [onPrice, hpos]
    exact h
  · simp only [onPrice, hpos]
    set s1 := ensureBasketTime env.orderTs env.now s with hs1
    set s2 := tickPopulate cfg env.trades env.now pos.positionAmt s1 with hs2
    set s3 := tickFixLastEntry cfg pos.entryPrice s2 with hs3
    set mark := if pos.markPrice ≠ 0 then pos.markPrice else price with hmark
    set s4 := tickUpdateStats pos.positionAmt mark pos.unRealizedProfit s3
      with hs4
    set s5 := (maybeResetState cfg env.wallet env.now env.cbRaises
      env.rcRaises pos.positionAmt s4).1 with hs5
    have h1 : GridInvariantAux cfg s1 := ensureBasketTime_inv cfg _ _ s h
    have h2 : GridInvariantAux cfg s2 := tickPopulate_inv cfg _ _ _ s1 h1
    have h3 : GridInvariantAux cfg s3 := by
      refine tickFixLastEntry_inv cfg _ s2 ?_ h2
      intro hn
      refine hsafe pos hpos ?_
      rw [hs2, (tickPopulate_proj _ _ _ _ _).1, hs1,
        (ensureBasketTime_proj _ _ _).1] at hn
      exact hn
    have h4 : GridInvariantAux cfg s4 := tickUpdateStats_inv cfg _ _ _ s3 h3
    have h5 : GridInvariantAux cfg s5 := maybeResetState_inv cfg _ _ _ _ _ s4
      (by omega) h4
    exact tickDecide_inv cfg drain env price mark env.bands s5 hmax h5

/-- C5 (amended): under a positive configured level cap, every state
reachable through the strategy's operations — reconciliation, ticks and
seeding against arbitrary exchange snapshots, with the one restriction
that a tick's snapshot reports a zero entry price while the local state
is flat — satisfies the claimed invariant: `direction = none` exactly
when `levels_filled = 0`, exactly when `next_entry_price = none`; the
level count never exceeds `max_levels`; `worst_drawdown ≤ 0`; and a zero
`basket_id` occurs only while `basket_open_ts` is unset. -/
theorem grid_state_invariant (cfg : SymbolConfig) (s : GridState)
    (hmax : 1 ≤ cfg.max_levels) (h : ReachableSafe cfg s) :
    GridInvariant cfg s := by
  suffices haux : GridInvariantAux cfg s from haux.1
  induction h with
  | init => exact GridInvariantAux_empty cfg (by omega)
  | reconcile env price pos_info open_orders s hr ih =>
    exact reconcilePosition_inv cfg env price pos_info open_orders s hmax ih
  | tick drain env price s hr hsafe ih =>
    exact onPrice_inv cfg drain env price s hmax hsafe ih
  | seed env d price s hr ih =>
    exact forceSeed_inv cfg env d price s hmax ih

/-- Witness for `grid_state_invariant`: at a one-level configuration the
cap hypothesis holds, the fresh state is reachable, and the invariant
follows. -/
theorem grid_state_invariant_witness :
    (1 ≤ (⟨1, 1, 1, 1, 1, ⟨1, 2, 1⟩, ⟨1, 0⟩, 0, 1, 1⟩
        : SymbolConfig).max_levels ∧
      ReachableSafe ⟨1, 1, 1, 1, 1, ⟨1, 2, 1⟩, ⟨1, 0⟩, 0, 1, 1⟩
        GridState.empty) ∧
    GridInvariant ⟨1, 1, 1, 1, 1, ⟨1, 2, 1⟩, ⟨1, 0⟩, 0, 1, 1⟩
      GridState.empty :=
  ⟨⟨by decide, ReachableSafe.init⟩,
   grid_state_invariant _ GridState.empty (by decide) ReachableSafe.init⟩

/-- C5 as stated is false.  First violation: one `on_price` tick from a
fresh state under an ordinary configuration (`max_levels = 10`), with the
exchange snapshot reporting a flat position but a non-zero `entryPrice`
(as live venues do after recent activity), backfills `last_entry_price`
and `next_entry_price` while `direction` stays `none` — the reachable
result breaks `direction = none ↔ next_entry_price = none`.  Second
violation: with `max_levels = 0` a seeded basket fills level 1
unconditionally (`_start_position` checks no cap), so the reachable
result breaks `levels_filled ≤ max_levels`. -/
theorem grid_state_claim_counterexample :
    (Reachable ⟨10, 1, 1, 1, 1, ⟨1, 2, 1⟩, ⟨1, 0⟩, 0, 1, 1⟩
        (onPrice ⟨10, 1, 1, 1, 1, ⟨1, 2, 1⟩, ⟨1, 0⟩, 0, 1, 1⟩ false
          ⟨[], some ⟨0, 100, 0, 0⟩, none, none, none, false, false, none,
           ⟨none, ⟨none, none, none, none⟩, none, 0⟩,
           ⟨fun _ => ⟨none, none, none, none⟩, fun _ => none⟩, 0⟩
          100 GridState.empty).1 ∧
      ¬ GridInvariant ⟨10, 1, 1, 1, 1, ⟨1, 2, 1⟩, ⟨1, 0⟩, 0, 1, 1⟩
        (onPrice ⟨10, 1, 1, 1, 1, ⟨1, 2, 1⟩, ⟨1, 0⟩, 0, 1, 1⟩ false
          ⟨[], some ⟨0, 100, 0, 0⟩, none, none, none, false, false, none,
           ⟨none, ⟨none, none, none, none⟩, none, 0⟩,
           ⟨fun _ => ⟨none, none, none, none⟩, fun _ => none⟩, 0⟩
          100 GridState.empty).1) ∧
    (Reachable ⟨0, 1, 1, 1, 1, ⟨1, 2, 1⟩, ⟨1, 0⟩, 0, 1, 1⟩
        (forceSeed ⟨0, 1, 1, 1, 1, ⟨1, 2, 1⟩, ⟨1, 0⟩, 0, 1, 1⟩
          ⟨none, ⟨none, some ⟨some 5, 1, 100, some 1700000000000, none⟩,
            none, none⟩, some none, 0⟩ "long" 100 GridState.empty).1 ∧
      ¬ GridInvariant ⟨0, 1, 1, 1, 1, ⟨1, 2, 1⟩, ⟨1, 0⟩, 0, 1, 1⟩
        (forceSeed ⟨0, 1, 1, 1, 1, ⟨1, 2, 1⟩, ⟨1, 0⟩, 0, 1, 1⟩
          ⟨none, ⟨none, some ⟨some 5, 1, 100, some 1700000000000, none⟩,
            none, none⟩, some none, 0⟩ "long" 100 GridState.empty).1) := by
  constructor
  · constructor
    · exact Reachable.tick false _ 100 GridState.empty Reachable.init
    · intro hInv
      have h21 := hInv.2.1
      norm_num [onPrice, ensureBasketTime, tickPopulate, tickFixLastEntry,
        tickUpdateStats, maybeResetState_not_triggered, tickDecide,
        truthyStr, truthyQ, GridState.empty, Option.some_ne_none] at h21
  · constructor
    · exact Reachable.seed _ "long" 100 GridState.empty Reachable.init
    · intro hInv
      have h3 := hInv.2.2.1
      norm_num [forceSeed, startPosition, execMarket, place_tp, truthyStr,
        truthyQ, level_qty, levelQtyAux, round_up, GridState.empty,
        Option.some_ne_none] at h3

end Barti
